import Mathlib

/-!
# udptunnel: frame codec, client session table and server relay

A shallow embedding of `packet.go`, `client.go` and `server.go`.

* Bytes are `Fin 256`; Go's `uint16` conversion is `% 65536` on `Nat`.
* Sockets are outside the program.  Every call that reaches one (dial, write,
  close, resolve, sleep, starting a goroutine) is appended to a chronological
  list of `Event`s, and the outcome of a call is chosen by an `Env`, which may
  look at the whole history.
* The inbound side of a carrier connection is the list of bytes that arrive
  before the stream ends.
* A nil handler, connection or socket that the code dereferences makes the
  run end in `Outcome.crash`; calls guarded by a nil check are skipped.
* Every method runs to completion on the state it is given; the table a method
  starts from is arbitrary, so it may be any table other goroutines left.
* Loops that run until the stream ends take a step budget `fuel`; the theorems
  show that a budget larger than the number of frames is enough.
* The two goroutines of `ServerConnection.Start` are a step function on a state
  that records where each loop is; a run is a list of actions, one loop
  iteration or the deferred `Close` each.
-/

namespace UdpTunnel

/-! ## Definitions -/

abbrev Byte := Fin 256

/-- Constant `maxPacketSize` of `packet.go`. -/
def maxPacketSize : Nat := 65536

/-- Constant `udpRetryCount` of `packet.go`. -/
def udpRetryCount : Nat := 3

/-- Constant `packetLengthSize` of `packet.go`. -/
def packetLengthSize : Nat := 2

/-- Go's conversion `uint16(n)` of a non-negative `int`. -/
def uint16 (n : Nat) : Nat := n % 65536

/-- Go's conversion `byte(v)`. -/
def byte (v : Nat) : Byte := ⟨v % 256, Nat.mod_lt v (by decide)⟩

/-- Library function `binary.BigEndian.PutUint16` on a fresh buffer of
`packetLengthSize` bytes: `b[0] = byte(v >> 8)`, `b[1] = byte(v)`. -/
def PutUint16 (v : Nat) : List Byte := [byte (v / 256), byte v]

/-- Library function `binary.BigEndian.Uint16`:
`uint16(b[1]) | uint16(b[0])<<8`. -/
def Uint16 (b0 b1 : Byte) : Nat := b0.val * 256 + b1.val

deriving instance DecidableEq for Except

/-- The errors the tunnel returns, one constructor per `fmt.Errorf` site. -/
inductive Error
  | writeLength
  | writeData
  | readLength
  | readData
  | dialServer
  | createConnection
  | udpResponse
  | udpWrite
  | resolveTarget
  | reconnectExhausted
  deriving DecidableEq, Repr

/-- Calls that leave the program, in the order they are made. -/
inductive Event
  | dialTCP (r : Option Nat)
  | tcpWrite (c : Nat) (b : List Byte) (ok : Bool)
  | tcpClose (c : Nat)
  | spawnReader (c : Nat)
  | udpSendTo (addr : String) (b : List Byte) (ok : Bool)
  | udpWrite (sock : Nat) (b : List Byte) (ok : Bool)
  | udpClose (sock : Nat)
  | resolveUDP (ok : Bool)
  | dialUDP (r : Option Nat)
  | sleep
  deriving DecidableEq, Repr

/-- The outside world: the outcome of each call, given the history so far. -/
structure Env where
  dialTCP : List Event → Option Nat
  tcpWrite : List Event → Nat → List Byte → Bool
  udpSendTo : List Event → String → List Byte → Bool
  udpWrite : List Event → Nat → List Byte → Bool
  resolveUDP : List Event → Bool
  dialUDP : List Event → Option Nat

/-- Result of running a piece of the program: a value, a nil dereference, or
the step budget of a loop model ran out. -/
inductive Outcome (α : Type)
  | ok (a : α)
  | crash
  | timeout
  deriving DecidableEq, Repr

/-- Type `TCPPacketHandler`; `conn` is `none` for a nil `net.Conn`. -/
structure TCPPacketHandler where
  conn : Option Nat
  deriving DecidableEq, Repr

/-- Function `NewTCPPacketHandler`. -/
def NewTCPPacketHandler (conn : Nat) : TCPPacketHandler := { conn := some conn }

/-- Method `TCPPacketHandler.WritePacket`: the length prefix and the payload go
out in two `conn.Write` calls; the first failing write ends the call. -/
def WritePacket (env : Env) (h : TCPPacketHandler) (data : List Byte) (t : List Event) :
    Outcome (Option Error × List Event) :=
  match h.conn with
  | none => .crash
  | some c =>
    let length := uint16 data.length
    let lengthBytes := PutUint16 length
    let ok1 := env.tcpWrite t c lengthBytes
    let t1 := t ++ [Event.tcpWrite c lengthBytes ok1]
    if ok1 then
      let ok2 := env.tcpWrite t1 c data
      let t2 := t1 ++ [Event.tcpWrite c data ok2]
      if ok2 then .ok (none, t2) else .ok (some Error.writeData, t2)
    else .ok (some Error.writeLength, t1)

/-- Library function `io.ReadFull` on a stream that ends after the listed
bytes: it fills a buffer of `n` bytes, or fails having drained the stream. -/
def readFull (n : Nat) (stream : List Byte) : Option (List Byte) × List Byte :=
  if n ≤ stream.length then (some (stream.take n), stream.drop n) else (none, [])

/-- Method `TCPPacketHandler.ReadPacket` on the bytes still to arrive; the
second component is what stays unread. -/
def ReadPacket (stream : List Byte) : Except Error (List Byte) × List Byte :=
  match readFull packetLengthSize stream with
  | (some [b0, b1], rest) =>
    let length := Uint16 b0 b1
    if length = 0 then (.ok [], rest)
    else
      match readFull length rest with
      | (some data, rest') => (.ok data, rest')
      | (none, rest') => (.error Error.readData, rest')
  | (_, rest) => (.error Error.readLength, rest)

/-- Bytes that connection `c` accepted in the history `t`, in order. -/
def wire (c : Nat) : List Event → List Byte
  | [] => []
  | Event.tcpWrite c' b true :: t => if c' = c then b ++ wire c t else wire c t
  | _ :: t => wire c t

/-- An environment in which every call succeeds; dialing returns the number
of events so far as the new handle. -/
def envAllOk : Env where
  dialTCP t := some t.length
  tcpWrite _ _ _ := true
  udpSendTo _ _ _ := true
  udpWrite _ _ _ := true
  resolveUDP _ := true
  dialUDP t := some t.length

/-- Wire encoding of one frame, as `WritePacket` emits it. -/
def frameBytes (payload : List Byte) : List Byte :=
  PutUint16 (uint16 payload.length) ++ payload

/-! ### Client (`client.go`) -/

/-- Type `ClientConnection`.  `tcpHandler` is `none` for a nil pointer,
`clientAddr` is the peer address in its string form, `client` tells whether the
back reference to the `TunnelClient` is non-nil.  The shared datagram socket
`udpConn` is the one socket `Event.udpSendTo` is made on. -/
structure ClientConnection where
  tcpHandler : Option TCPPacketHandler
  clientAddr : String
  client : Bool
  deriving DecidableEq, Repr

/-- Type `TunnelClient`: the session table `connections` (a Go map; the only
insertion, in `createClientConnection`, stores a non-nil pointer) and the
history of calls made so far.  The two address strings, the local socket and
the mutex of the Go struct have no counterpart here. -/
structure TunnelClient where
  connections : String → Option ClientConnection
  trace : List Event

/-- Go's `delete(m, key)`. -/
def mapDelete (m : String → Option ClientConnection) (key : String) :
    String → Option ClientConnection :=
  fun k => if k = key then none else m k

/-- Go's `m[key] = v`. -/
def mapInsert (m : String → Option ClientConnection) (key : String) (v : ClientConnection) :
    String → Option ClientConnection :=
  fun k => if k = key then some v else m k

/-- Method `TunnelClient.isConnectionValid`. -/
def isConnectionValid (conn : ClientConnection) : Bool :=
  match conn.tcpHandler with
  | none => false
  | some h =>
    match h.conn with
    | none => false
    | some _ => true

/-- Method `ClientConnection.Close`. -/
def ClientConnection.Close (c : ClientConnection) (t : List Event) : List Event :=
  match c.tcpHandler with
  | some h =>
    match h.conn with
    | some k => t ++ [Event.tcpClose k]
    | none => t
  | none => t

/-- Method `ClientConnection.SendToServer`. -/
def ClientConnection.SendToServer (env : Env) (c : ClientConnection) (data : List Byte)
    (t : List Event) : Outcome (Option Error × List Event) :=
  match c.tcpHandler with
  | none => .crash
  | some h => WritePacket env h data t

/-- Method `TunnelClient.removeConnection`. -/
def removeConnection (cl : TunnelClient) (clientKey : String) : TunnelClient :=
  match cl.connections clientKey with
  | some conn =>
    { connections := mapDelete cl.connections clientKey, trace := conn.Close cl.trace }
  | none => cl

/-- Method `TunnelClient.createClientConnection`. -/
def createClientConnection (env : Env) (cl : TunnelClient) (clientAddr : String) :
    Except Error ClientConnection × TunnelClient :=
  match env.dialTCP cl.trace with
  | none => (.error Error.dialServer, { cl with trace := cl.trace ++ [Event.dialTCP none] })
  | some k =>
    let conn : ClientConnection :=
      { tcpHandler := some (NewTCPPacketHandler k), clientAddr := clientAddr, client := true }
    (.ok conn,
      { connections := mapInsert cl.connections clientAddr conn,
        trace := cl.trace ++ [Event.dialTCP (some k), Event.spawnReader k] })

/-- Method `TunnelClient.forwardToServer`. -/
def forwardToServer (env : Env) (cl : TunnelClient) (clientAddr : String) (data : List Byte) :
    Outcome (Option Error × TunnelClient) :=
  let clientKey := clientAddr
  let step : Except Error ClientConnection × TunnelClient :=
    match cl.connections clientKey with
    | none => createClientConnection env cl clientAddr
    | some conn =>
      if isConnectionValid conn then (.ok conn, cl)
      else createClientConnection env (removeConnection cl clientKey) clientAddr
  match step with
  | (.error _, cl1) => .ok (some Error.createConnection, cl1)
  | (.ok conn, cl1) =>
    match conn.SendToServer env data cl1.trace with
    | .ok (some err, t) => .ok (some err, removeConnection { cl1 with trace := t } clientKey)
    | .ok (none, t) => .ok (none, { cl1 with trace := t })
    | .crash => .crash
    | .timeout => .timeout

/-- Method `ClientConnection.sendUDPResponse`. -/
def ClientConnection.sendUDPResponse (env : Env) (c : ClientConnection) (data : List Byte)
    (t : List Event) : Option Error × List Event :=
  let ok := env.udpSendTo t c.clientAddr data
  (if ok then none else some Error.udpResponse, t ++ [Event.udpSendTo c.clientAddr data ok])

/-- The `for` loop of `ClientConnection.HandleServerResponse`, on the bytes
still to arrive on the carrier connection; one unit of `fuel` per iteration. -/
def responseLoop (env : Env) (c : ClientConnection) :
    Nat → List Byte → List Event → Outcome (List Event)
  | 0, _, _ => .timeout
  | fuel + 1, stream, t =>
    match ReadPacket stream with
    | (.error _, _) => .ok t
    | (.ok data, rest) =>
      if data.length = 0 then responseLoop env c fuel rest t
      else
        match c.sendUDPResponse env data t with
        | (some _, t1) => .ok t1
        | (none, t1) => responseLoop env c fuel rest t1

/-- The deferred function of `ClientConnection.HandleServerResponse`. -/
def responseCleanup (c : ClientConnection) (cl : TunnelClient) : TunnelClient :=
  let cl1 := { cl with trace := c.Close cl.trace }
  if c.client then removeConnection cl1 c.clientAddr else cl1

/-- Method `ClientConnection.HandleServerResponse`: the loop, then the deferred
cleanup.  A session without a connection makes `ReadPacket` dereference nil. -/
def ClientConnection.HandleServerResponse (env : Env) (c : ClientConnection) (fuel : Nat)
    (stream : List Byte) (cl : TunnelClient) : Outcome TunnelClient :=
  if isConnectionValid c then
    match responseLoop env c fuel stream cl.trace with
    | .ok t => .ok (responseCleanup c { cl with trace := t })
    | .crash => .crash
    | .timeout => .timeout
  else .crash

/-- Datagrams sent with success to the peer address `addr`, in order. -/
def datagramsToPeer (addr : String) : List Event → List (List Byte)
  | [] => []
  | Event.udpSendTo a b true :: t =>
    if a = addr then b :: datagramsToPeer addr t else datagramsToPeer addr t
  | _ :: t => datagramsToPeer addr t

/-- Number of carrier dials in a history. -/
def dialCount : List Event → Nat
  | [] => 0
  | Event.dialTCP _ :: t => dialCount t + 1
  | _ :: t => dialCount t

/-! ### Server (`server.go`) -/

/-- Type `ServerConnection`; `udpConn` is `none` for a nil socket. -/
structure ServerConnection where
  tcpHandler : Option TCPPacketHandler
  udpConn : Option Nat
  clientAddr : String
  targetUDP : String
  deriving DecidableEq, Repr

/-- Call `sc.udpConn.Write(data)`; a nil socket is a nil dereference. -/
def udpConnWrite (env : Env) (udpConn : Option Nat) (data : List Byte) (t : List Event) :
    Outcome (Bool × List Event) :=
  match udpConn with
  | none => .crash
  | some s =>
    let ok := env.udpWrite t s data
    .ok (ok, t ++ [Event.udpWrite s data ok])

/-- The connection behind a handler pointer; `none` when the pointer or its
`conn` is nil, where `ReadPacket` dereferences nil. -/
def carrierOf (h : Option TCPPacketHandler) : Option Nat :=
  match h with
  | none => none
  | some h => h.conn

/-- Method call `sc.udpConn.Close()` under the guard `sc.udpConn != nil`. -/
def udpConnClose (udpConn : Option Nat) (t : List Event) : List Event :=
  match udpConn with
  | some s => t ++ [Event.udpClose s]
  | none => t

/-- The retry loop `for i := 0; i < udpRetryCount; i++` of `reconnectUDP`;
one unit of `fuel` per evaluation of the loop condition. -/
def reconnectLoop (env : Env) (sc : ServerConnection) :
    Nat → Nat → List Event → Outcome (Option Error × ServerConnection × List Event)
  | 0, _, _ => .timeout
  | fuel + 1, i, t =>
    if i < udpRetryCount then
      match env.dialUDP t with
      | some newConn => .ok (none, { sc with udpConn := some newConn },
          t ++ [Event.dialUDP (some newConn)])
      | none =>
        let t1 := t ++ [Event.dialUDP none]
        let t2 := if i < udpRetryCount - 1 then t1 ++ [Event.sleep] else t1
        reconnectLoop env sc fuel (i + 1) t2
    else .ok (some Error.reconnectExhausted, sc, t)

/-- Method `ServerConnection.reconnectUDP`. -/
def reconnectUDP (env : Env) (sc : ServerConnection) (t : List Event) :
    Outcome (Option Error × ServerConnection × List Event) :=
  let t0 := udpConnClose sc.udpConn t
  let resolved := env.resolveUDP t0
  let t1 := t0 ++ [Event.resolveUDP resolved]
  if resolved then reconnectLoop env sc (udpRetryCount + 1) 0 t1
  else .ok (some Error.resolveTarget, sc, t1)

/-- Method `ServerConnection.forwardToUDP`. -/
def forwardToUDP (env : Env) (sc : ServerConnection) (data : List Byte) (t : List Event) :
    Outcome (Option Error × ServerConnection × List Event) :=
  match udpConnWrite env sc.udpConn data t with
  | .ok (true, t1) => .ok (none, sc, t1)
  | .ok (false, t1) =>
    match reconnectUDP env sc t1 with
    | .ok (none, sc2, t2) =>
      match udpConnWrite env sc2.udpConn data t2 with
      | .ok (true, t3) => .ok (none, sc2, t3)
      | .ok (false, t3) => .ok (some Error.udpWrite, sc2, t3)
      | .crash => .crash
      | .timeout => .timeout
    | .ok (some _, sc2, t2) => .ok (some Error.udpWrite, sc2, t2)
    | .crash => .crash
    | .timeout => .timeout
  | .crash => .crash
  | .timeout => .timeout

/-- Method `ServerConnection.handleClientData` on the bytes still to arrive
on the carrier connection; one unit of `fuel` per iteration.  `ReadPacket` on a
nil handler or connection is a nil dereference.  The result is the connection
state and the history when the loop returns. -/
def handleClientData (env : Env) :
    Nat → ServerConnection → List Byte → List Event → Outcome (ServerConnection × List Event)
  | 0, _, _, _ => .timeout
  | fuel + 1, sc, stream, t =>
    match carrierOf sc.tcpHandler with
    | none => .crash
    | some _ =>
      match ReadPacket stream with
      | (.error _, _) => .ok (sc, t)
      | (.ok data, rest) =>
        if data.length = 0 then handleClientData env fuel sc rest t
        else
          match forwardToUDP env sc data t with
          | .ok (none, sc1, t1) => handleClientData env fuel sc1 rest t1
          | .ok (some _, sc1, t1) => .ok (sc1, t1)
          | .crash => .crash
          | .timeout => .timeout

/-- Datagrams written with success to a destination socket, each with the
socket it was written on, in order. -/
def datagramsToTarget : List Event → List (Nat × List Byte)
  | [] => []
  | Event.udpWrite s b true :: t => (s, b) :: datagramsToTarget t
  | _ :: t => datagramsToTarget t

/-- What the spec says the upstream loop does with the non-empty payloads of
the frames it reads: `forwardToUDP` on each in order, until one returns an
error, which ends the loop. -/
def relayTarget (env : Env) :
    List (List Byte) → ServerConnection → List Event → Outcome (ServerConnection × List Event)
  | [], sc, t => .ok (sc, t)
  | p :: ps, sc, t =>
    match forwardToUDP env sc p t with
    | .ok (none, sc1, t1) => relayTarget env ps sc1 t1
    | .ok (some _, sc1, t1) => .ok (sc1, t1)
    | .crash => .crash
    | .timeout => .timeout

/-- Number of `Write` calls on a destination socket in a history. -/
def udpWriteCount : List Event → Nat
  | [] => 0
  | Event.udpWrite _ _ _ :: t => udpWriteCount t + 1
  | _ :: t => udpWriteCount t

/-- An environment in which datagram writes fail and everything else
succeeds. -/
def envUdpDown : Env where
  dialTCP t := some t.length
  tcpWrite _ _ _ := true
  udpSendTo _ _ _ := false
  udpWrite _ _ _ := false
  resolveUDP _ := true
  dialUDP t := some t.length

/-- Shape of the calls of a retry loop that made `n` failed dials, each
followed by a delay, and then a last dial with outcome `r`. -/
def retryPattern : Nat → Option Nat → List Event
  | 0, r => [Event.dialUDP r]
  | n + 1, r => Event.dialUDP none :: Event.sleep :: retryPattern n r

/-- Bytes of a sequence of frames arriving back to back. -/
def frameStream : List (List Byte) → List Byte
  | [] => []
  | p :: ps => frameBytes p ++ frameStream ps

/-- The payloads of a sequence of frames that are not empty, in order. -/
def nonEmptyPayloads (frames : List (List Byte)) : List (List Byte) :=
  frames.filter (fun p => decide (p ≠ []))

/-- An environment in which no carrier can be dialed. -/
def envNoCarrier : Env where
  dialTCP _ := none
  tcpWrite _ _ _ := true
  udpSendTo _ _ _ := true
  udpWrite _ _ _ := true
  resolveUDP _ := true
  dialUDP t := some t.length

/-- An environment in which carrier writes fail and dials succeed. -/
def envCarrierDown : Env where
  dialTCP t := some t.length
  tcpWrite _ _ _ := false
  udpSendTo _ _ _ := true
  udpWrite _ _ _ := true
  resolveUDP _ := true
  dialUDP t := some t.length

/-- An environment in which carrier writes succeed only while fewer than four
calls have been made. -/
def envEarlyWrites : Env where
  dialTCP t := some t.length
  tcpWrite t _ _ := decide (t.length < 4)
  udpSendTo _ _ _ := true
  udpWrite _ _ _ := true
  resolveUDP _ := true
  dialUDP t := some t.length

/-- An environment in which carrier writes fail until four calls have been
made and succeed afterwards. -/
def envLateWrites : Env where
  dialTCP t := some t.length
  tcpWrite t _ _ := decide (4 ≤ t.length)
  udpSendTo _ _ _ := true
  udpWrite _ _ _ := true
  resolveUDP _ := true
  dialUDP t := some t.length

/-! ### Server connection lifetime (`ServerConnection.Start`) -/

/-- Method `ServerConnection.Close`: the carrier connection, then the
destination socket, each under its nil guard. -/
def ServerConnection.Close (sc : ServerConnection) (t : List Event) : List Event :=
  let t1 :=
    match sc.tcpHandler with
    | some h =>
      match h.conn with
      | some k => t ++ [Event.tcpClose k]
      | none => t
    | none => t
  udpConnClose sc.udpConn t1

/-- What `sc.udpConn.Read` returns in `handleUDPResponse`: a datagram, a
timeout error, or any other error. -/
inductive UdpRead
  | data (b : List Byte)
  | deadline
  | failed
  deriving DecidableEq, Repr

/-- Whether a loop is still in its `for` or has returned. -/
inductive Phase
  | running
  | returned
  deriving DecidableEq, Repr

/-- One iteration of the loop of `ServerConnection.handleUDPResponse`, given
what the read returned; the read of a nil socket is a nil dereference.  The
flag tells whether the loop goes on (`true`) or returns (`false`). -/
def handleUDPResponseIter (env : Env) (sc : ServerConnection) (r : UdpRead) (t : List Event) :
    Outcome (Bool × List Event) :=
  match sc.udpConn with
  | none => .crash
  | some _ =>
    match r with
    | .deadline => .ok (true, t)
    | .failed => .ok (false, t)
    | .data b =>
      match sc.tcpHandler with
      | none => .crash
      | some h =>
        match WritePacket env h b t with
        | .ok (none, t1) => .ok (true, t1)
        | .ok (some _, t1) => .ok (false, t1)
        | .crash => .crash
        | .timeout => .timeout

/-- One iteration of the loop of `ServerConnection.handleClientData`.  The
flag tells whether the loop goes on (`true`) or returns (`false`). -/
def handleClientDataIter (env : Env) (sc : ServerConnection) (stream : List Byte)
    (t : List Event) : Outcome (Bool × ServerConnection × List Byte × List Event) :=
  match carrierOf sc.tcpHandler with
  | none => .crash
  | some _ =>
    match ReadPacket stream with
    | (.error _, rest) => .ok (false, sc, rest, t)
    | (.ok data, rest) =>
      if data.length = 0 then .ok (true, sc, rest, t)
      else
        match forwardToUDP env sc data t with
        | .ok (none, sc1, t1) => .ok (true, sc1, rest, t1)
        | .ok (some _, sc1, t1) => .ok (false, sc1, rest, t1)
        | .crash => .crash
        | .timeout => .timeout

/-- Whether the unread carrier bytes hold a complete frame. -/
def frameReady (stream : List Byte) : Bool :=
  match (ReadPacket stream).1 with
  | .ok _ => true
  | .error _ => false

/-- State of one run of `ServerConnection.Start` after `go sc.handleUDPResponse()`:
the connection pair, the carrier bytes still to arrive, whether the carrier
ends after them (`true`) or stays open and silent (`false`), where the two
loops are, whether the deferred `sc.Close()` has run, and the history. -/
structure Relay where
  sc : ServerConnection
  stream : List Byte
  streamEnds : Bool
  upstream : Phase
  downstream : Phase
  closed : Bool
  trace : List Event
  deriving DecidableEq, Repr

/-- What can happen next in a run of `Start`: the calling goroutine runs one
iteration of `handleClientData`; the spawned goroutine runs one iteration of
`handleUDPResponse`, its read returning `r`; or, `handleClientData` having
returned, `Start` returns and its deferred `sc.Close()` runs. -/
inductive Action
  | upstream
  | downstream (r : UdpRead)
  | teardown
  deriving DecidableEq, Repr

/-- The state in which `Start` has spawned `handleUDPResponse` and calls
`handleClientData`. -/
def startInit (sc : ServerConnection) (stream : List Byte) (streamEnds : Bool)
    (t : List Event) : Relay :=
  { sc := sc, stream := stream, streamEnds := streamEnds, upstream := .running,
    downstream := .running, closed := false, trace := t }

/-- One step of a run of `Start`; `none` when the action cannot happen.  A read
of the carrier blocks while no complete frame has arrived and the carrier is
still open.  `Start` is `defer sc.Close(); go sc.handleUDPResponse();
sc.handleClientData()`: the deferred `Close` follows the return of
`handleClientData` and nothing else. -/
def startStep (env : Env) (s : Relay) : Action → Option Relay
  | .upstream =>
    if s.upstream = .running ∧ (frameReady s.stream = true ∨ s.streamEnds = true) then
      match handleClientDataIter env s.sc s.stream s.trace with
      | .ok (true, sc1, rest, t1) => some { s with sc := sc1, stream := rest, trace := t1 }
      | .ok (false, sc1, rest, t1) =>
        some { s with sc := sc1, stream := rest, trace := t1, upstream := .returned }
      | _ => none
    else none
  | .downstream r =>
    if s.downstream = .running then
      match handleUDPResponseIter env s.sc r s.trace with
      | .ok (true, t1) => some { s with trace := t1 }
      | .ok (false, t1) => some { s with trace := t1, downstream := .returned }
      | _ => none
    else none
  | .teardown =>
    if s.upstream = .returned ∧ s.closed = false then
      some { s with trace := s.sc.Close s.trace, closed := true }
    else none

/-- A run of `Start`: the actions in order; `none` if one of them cannot
happen. -/
def startRun (env : Env) : List Action → Relay → Option Relay
  | [], s => some s
  | a :: as, s =>
    match startStep env s a with
    | some s1 => startRun env as s1
    | none => none

/-! ## Theorems -/

/-! ### Frame codec -/

theorem wire_append (c : Nat) (t u : List Event) : wire c (t ++ u) = wire c t ++ wire c u := by
  induction t with
  | nil => simp [wire]
  | cons e t ih =>
    cases e with
    | tcpWrite c' b ok =>
      cases ok
      · simp [wire, ih]
      · by_cases hc : c' = c <;> simp [wire, ih, hc]
    | _ => simp [wire, ih]

theorem wire_tcpWrite (c : Nat) (b : List Byte) (ok : Bool) :
    wire c [Event.tcpWrite c b ok] = if ok then b else [] := by
  cases ok <;> simp [wire]

theorem Uint16_PutUint16 (L : Nat) (hL : L ≤ 65535) :
    Uint16 (byte (L / 256)) (byte L) = L := by
  simp only [Uint16, byte]
  omega

/-- What `WritePacket` returns and logs on a handler with a connection. -/
theorem WritePacket_some (env : Env) (h : TCPPacketHandler) (c : Nat) (data : List Byte)
    (t : List Event) (hc : h.conn = some c) :
    WritePacket env h data t =
      if env.tcpWrite t c (PutUint16 (uint16 data.length)) then
        if env.tcpWrite (t ++ [Event.tcpWrite c (PutUint16 (uint16 data.length)) true]) c data then
          .ok (none, t ++ [Event.tcpWrite c (PutUint16 (uint16 data.length)) true,
            Event.tcpWrite c data true])
        else
          .ok (some Error.writeData, t ++ [Event.tcpWrite c (PutUint16 (uint16 data.length)) true,
            Event.tcpWrite c data false])
      else .ok (some Error.writeLength,
        t ++ [Event.tcpWrite c (PutUint16 (uint16 data.length)) false]) := by
  unfold WritePacket
  rw [hc]
  by_cases h1 : env.tcpWrite t c (PutUint16 (uint16 data.length)) = true
  · by_cases h2 : env.tcpWrite (t ++ [Event.tcpWrite c (PutUint16 (uint16 data.length)) true])
        c data = true
    · simp [h1, h2]
    · simp [h1, h2]
  · simp [h1]

/-- A successful `WritePacket` puts the prefix and the payload on the wire. -/
theorem WritePacket_ok_wire (env : Env) (h : TCPPacketHandler) (c : Nat) (data : List Byte)
    (t t' : List Event) (hc : h.conn = some c)
    (hw : WritePacket env h data t = .ok (none, t')) :
    wire c t' = wire c t ++ (PutUint16 (uint16 data.length) ++ data) := by
  rw [WritePacket_some env h c data t hc] at hw
  split at hw
  · split at hw
    · simp only [Outcome.ok.injEq, Prod.mk.injEq, true_and] at hw
      subst hw
      simp [wire_append, wire]
    · simp at hw
  · simp at hw

/-- Decoding a well-formed frame followed by further bytes. -/
theorem ReadPacket_frame (payload rest : List Byte) (hL : payload.length ≤ 65535) :
    ReadPacket (PutUint16 (uint16 payload.length) ++ payload ++ rest) = (.ok payload, rest) := by
  have hu : uint16 payload.length = payload.length := by
    unfold uint16; omega
  have hU := Uint16_PutUint16 payload.length hL
  rw [hu]
  by_cases h0 : payload.length = 0
  · have hp : payload = [] := List.length_eq_zero.mp h0
    subst hp
    simp [ReadPacket, readFull, packetLengthSize, PutUint16] at hU ⊢
    simp [hU]
  · simp only [ReadPacket, readFull, packetLengthSize, PutUint16, List.cons_append,
      List.nil_append, List.length_cons, List.take_succ_cons, List.take_zero, List.drop_succ_cons,
      List.drop_zero]
    simp [hU, h0]

/-- Claim C1: for every payload of at most 65535 bytes and every sequence of
following bytes, the bytes a successful `WritePacket` put on the connection,
followed by those further bytes, are decoded by `ReadPacket` without error
into the original payload, leaving exactly the further bytes unread. -/
theorem C1_roundtrip (env : Env) (h : TCPPacketHandler) (c : Nat) (payload rest : List Byte)
    (t t' : List Event) (hc : h.conn = some c) (hL : payload.length ≤ 65535)
    (hw : WritePacket env h payload t = .ok (none, t')) :
    ∃ frame, wire c t' = wire c t ++ frame ∧
      ReadPacket (frame ++ rest) = (.ok payload, rest) :=
  ⟨PutUint16 (uint16 payload.length) ++ payload, WritePacket_ok_wire env h c payload t t' hc hw,
    ReadPacket_frame payload rest hL⟩

theorem C1_roundtrip_witness :
    ∃ frame, wire 4 [Event.tcpWrite 4 [0, 3] true, Event.tcpWrite 4 [7, 8, 9] true]
        = wire 4 [] ++ frame ∧
      ReadPacket (frame ++ [0, 0, 5]) = (.ok [7, 8, 9], [0, 0, 5]) :=
  C1_roundtrip envAllOk ⟨some 4⟩ 4 [7, 8, 9] [0, 0, 5] [] _ rfl (by decide) (by decide)

/-- A zero length prefix is decoded as an empty payload, whatever follows. -/
theorem ReadPacket_zero_prefix (rest : List Byte) :
    ReadPacket (0 :: 0 :: rest) = (.ok [], rest) := by
  simp [ReadPacket, readFull, packetLengthSize, Uint16]

/-- With every write accepted, a payload of any length is framed under its
length taken modulo 65536 and no error is returned. -/
theorem WritePacket_oversize (env : Env) (h : TCPPacketHandler) (c : Nat) (data : List Byte)
    (t : List Event) (hc : h.conn = some c) (hok : ∀ u b, env.tcpWrite u c b = true) :
    WritePacket env h data t =
      .ok (none, t ++ [Event.tcpWrite c (PutUint16 (data.length % 65536)) true,
        Event.tcpWrite c data true]) := by
  rw [WritePacket_some env h c data t hc]
  simp [hok, uint16]

/-- Claim C2 (failing input): a payload of 65536 zero bytes is written with
the length prefix `[0, 0]` in front of all 65536 bytes and `WritePacket`
returns no error; `ReadPacket` then decodes an empty payload and leaves the
65536 bytes in the stream. -/
theorem C2_oversize_payload_is_truncated :
    WritePacket envAllOk ⟨some 0⟩ (List.replicate 65536 0) [] =
        .ok (none, [Event.tcpWrite 0 [0, 0] true,
          Event.tcpWrite 0 (List.replicate 65536 0) true]) ∧
      ReadPacket (wire 0 [Event.tcpWrite 0 [0, 0] true,
          Event.tcpWrite 0 (List.replicate 65536 0) true]) =
        (.ok [], List.replicate 65536 0) := by
  constructor
  · rw [WritePacket_oversize envAllOk ⟨some 0⟩ 0 _ [] rfl (fun _ _ => rfl)]
    simp only [List.length_replicate, List.nil_append]
    rfl
  · have hw : wire 0 [Event.tcpWrite 0 [0, 0] true,
        Event.tcpWrite 0 (List.replicate 65536 0) true] = 0 :: 0 :: List.replicate 65536 0 := by
      simp only [wire, if_true, List.append_nil, List.cons_append, List.nil_append]
    rw [hw]
    exact ReadPacket_zero_prefix _

/-- Claim C3: on a stream that ends inside the length prefix, or inside the
payload announced by a non-zero length prefix, `ReadPacket` returns an error
(and so no payload); whenever it returns a payload, the stream started with
two prefix bytes and the payload has exactly the length they encode. -/
theorem C3_short_stream_is_an_error (stream : List Byte) :
    (stream.length < 2 → (ReadPacket stream).1 = .error Error.readLength) ∧
    (∀ b0 b1 rest, stream = b0 :: b1 :: rest → 0 < Uint16 b0 b1 →
      rest.length < Uint16 b0 b1 → (ReadPacket stream).1 = .error Error.readData) ∧
    (∀ payload, (ReadPacket stream).1 = .ok payload →
      ∃ b0 b1 rest, stream = b0 :: b1 :: rest ∧ payload.length = Uint16 b0 b1) := by
  refine ⟨?_, ?_, ?_⟩
  · intro hlen
    have : ¬ (2 ≤ stream.length) := by omega
    simp [ReadPacket, readFull, packetLengthSize, this]
  · intro b0 b1 rest hs hpos hshort
    subst hs
    have h1 : ¬ (Uint16 b0 b1 = 0) := by omega
    have h2 : ¬ (Uint16 b0 b1 ≤ rest.length) := by omega
    simp [ReadPacket, readFull, packetLengthSize, h1, h2]
  · intro payload hp
    match stream, hp with
    | [], hp => simp [ReadPacket, readFull, packetLengthSize] at hp
    | [_], hp => simp [ReadPacket, readFull, packetLengthSize] at hp
    | b0 :: b1 :: rest, hp =>
      refine ⟨b0, b1, rest, rfl, ?_⟩
      by_cases h1 : Uint16 b0 b1 = 0
      · simp [ReadPacket, readFull, packetLengthSize, h1] at hp
        subst hp
        simp [h1]
      · by_cases h2 : Uint16 b0 b1 ≤ rest.length
        · simp [ReadPacket, readFull, packetLengthSize, h1, h2] at hp
          subst hp
          simp [h2]
        · simp [ReadPacket, readFull, packetLengthSize, h1, h2] at hp

theorem C3_short_stream_is_an_error_witness :
    ((([5] : List Byte).length < 2 → (ReadPacket [5]).1 = .error Error.readLength) ∧
    (∀ b0 b1 rest, ([5] : List Byte) = b0 :: b1 :: rest → 0 < Uint16 b0 b1 →
      rest.length < Uint16 b0 b1 → (ReadPacket [5]).1 = .error Error.readData) ∧
    (∀ payload, (ReadPacket [5]).1 = .ok payload →
      ∃ b0 b1 rest, ([5] : List Byte) = b0 :: b1 :: rest ∧ payload.length = Uint16 b0 b1)) ∧
    (([5] : List Byte).length < 2) ∧ (ReadPacket [5]).1 = .error Error.readLength ∧
    (ReadPacket [0, 3, 1, 2]).1 = .error Error.readData ∧
    (ReadPacket [0, 2, 1, 2, 9]).1 = .ok [1, 2] :=
  ⟨C3_short_stream_is_an_error [5], by decide, by decide, by decide, by decide⟩

/-- Claim C4: for a payload of length `L ≤ 65535`, when both writes succeed
`WritePacket` makes exactly two writes on the connection, the bytes
`L / 256` and `L mod 256` and then the payload unchanged: `L + 2` bytes on the
wire, whose length field decodes to `len(payload)`; for `L = 0` the two zero
bytes only. -/
theorem C4_wire_format (env : Env) (h : TCPPacketHandler) (c : Nat) (payload : List Byte)
    (t t' : List Event) (hc : h.conn = some c) (hL : payload.length ≤ 65535)
    (hw : WritePacket env h payload t = .ok (none, t')) :
    ∃ b0 b1 : Byte, b0.val = payload.length / 256 ∧ b1.val = payload.length % 256 ∧
      t' = t ++ [Event.tcpWrite c [b0, b1] true, Event.tcpWrite c payload true] ∧
      wire c t' = wire c t ++ (b0 :: b1 :: payload) ∧
      (b0 :: b1 :: payload).length = payload.length + 2 ∧
      Uint16 b0 b1 = payload.length ∧
      (payload.length = 0 → wire c t' = wire c t ++ [0, 0]) := by
  have hu : uint16 payload.length = payload.length := by
    unfold uint16; omega
  have hwire := WritePacket_ok_wire env h c payload t t' hc hw
  rw [WritePacket_some env h c payload t hc] at hw
  rw [hu] at hw hwire
  refine ⟨byte (payload.length / 256), byte payload.length, ?_, ?_, ?_, ?_, ?_, ?_, ?_⟩
  · simp only [byte]; omega
  · simp [byte]
  · split at hw
    · split at hw
      · simp only [Outcome.ok.injEq, Prod.mk.injEq, true_and] at hw
        rw [← hw]; rfl
      · simp at hw
    · simp at hw
  · simpa [PutUint16] using hwire
  · simp
  · exact Uint16_PutUint16 _ hL
  · intro h0
    have hp : payload = [] := List.length_eq_zero.mp h0
    subst hp
    simpa [PutUint16, byte] using hwire

theorem C4_wire_format_witness :
    ∃ b0 b1 : Byte, b0.val = ([7, 8, 9] : List Byte).length / 256 ∧
      b1.val = ([7, 8, 9] : List Byte).length % 256 ∧
      [Event.tcpWrite 4 [0, 3] true, Event.tcpWrite 4 [7, 8, 9] true] =
        [] ++ [Event.tcpWrite 4 [b0, b1] true, Event.tcpWrite 4 [7, 8, 9] true] ∧
      wire 4 [Event.tcpWrite 4 [0, 3] true, Event.tcpWrite 4 [7, 8, 9] true] =
        wire 4 [] ++ (b0 :: b1 :: [7, 8, 9]) ∧
      (b0 :: b1 :: ([7, 8, 9] : List Byte)).length = ([7, 8, 9] : List Byte).length + 2 ∧
      Uint16 b0 b1 = ([7, 8, 9] : List Byte).length ∧
      (([7, 8, 9] : List Byte).length = 0 →
        wire 4 [Event.tcpWrite 4 [0, 3] true, Event.tcpWrite 4 [7, 8, 9] true] =
          wire 4 [] ++ [0, 0]) :=
  C4_wire_format envAllOk ⟨some 4⟩ 4 [7, 8, 9] [] _ rfl (by decide) (by decide)

/-! ### Destination reconnect (`reconnectUDP`) -/

/-- The body of `reconnectUDP` after the resolution outcome is known. -/
theorem reconnectUDP_unfold (env : Env) (sc : ServerConnection) (t : List Event) :
    reconnectUDP env sc t =
      if env.resolveUDP (udpConnClose sc.udpConn t) then
        reconnectLoop env sc (udpRetryCount + 1) 0
          (udpConnClose sc.udpConn t ++ [Event.resolveUDP true])
      else .ok (some Error.resolveTarget, sc,
          udpConnClose sc.udpConn t ++ [Event.resolveUDP false]) := by
  unfold reconnectUDP
  cases h : env.resolveUDP (udpConnClose sc.udpConn t) <;> simp [h]

/-- The retry loop unrolled: three dials at most, a sleep after the first and
the second failure only. -/
theorem reconnectLoop_unfold (env : Env) (sc : ServerConnection) (t : List Event) :
    reconnectLoop env sc (udpRetryCount + 1) 0 t =
      match env.dialUDP t with
      | some s => .ok (none, { sc with udpConn := some s }, t ++ [Event.dialUDP (some s)])
      | none =>
        match env.dialUDP (t ++ [Event.dialUDP none, Event.sleep]) with
        | some s => .ok (none, { sc with udpConn := some s },
            t ++ [Event.dialUDP none, Event.sleep, Event.dialUDP (some s)])
        | none =>
          match env.dialUDP (t ++ [Event.dialUDP none, Event.sleep, Event.dialUDP none,
              Event.sleep]) with
          | some s => .ok (none, { sc with udpConn := some s },
              t ++ [Event.dialUDP none, Event.sleep, Event.dialUDP none, Event.sleep,
                Event.dialUDP (some s)])
          | none => .ok (some Error.reconnectExhausted, sc,
              t ++ [Event.dialUDP none, Event.sleep, Event.dialUDP none, Event.sleep,
                Event.dialUDP none]) := by
  simp only [udpRetryCount, reconnectLoop]
  cases h1 : env.dialUDP t with
  | some s => simp
  | none =>
    cases h2 : env.dialUDP (t ++ [Event.dialUDP none, Event.sleep]) with
    | some s => simp [h2]
    | none =>
      cases h3 : env.dialUDP (t ++ [Event.dialUDP none, Event.sleep, Event.dialUDP none,
          Event.sleep]) with
      | some s => simp [h2, h3]
      | none => simp [h2, h3]

/-- Every run of `reconnectUDP`: its result, the socket it leaves and the calls
it makes, by the outcome of the resolution and of the dials. -/
theorem reconnectUDP_shape (env : Env) (sc : ServerConnection) (t : List Event) :
    ∃ res sc' t', reconnectUDP env sc t = .ok (res, sc', t') ∧
      (env.resolveUDP (udpConnClose sc.udpConn t) = false →
        res = some Error.resolveTarget ∧ sc' = sc ∧
          t' = udpConnClose sc.udpConn t ++ [Event.resolveUDP false]) ∧
      (env.resolveUDP (udpConnClose sc.udpConn t) = true →
        ∃ n r, n ≤ 2 ∧
          t' = udpConnClose sc.udpConn t ++ [Event.resolveUDP true] ++ retryPattern n r ∧
          (∀ s, r = some s → res = none ∧ sc' = { sc with udpConn := some s }) ∧
          (r = none → n = 2 ∧ res = some Error.reconnectExhausted ∧ sc' = sc)) ∧
      (res ≠ none ↔ (env.resolveUDP (udpConnClose sc.udpConn t) = false ∨
        (env.dialUDP (udpConnClose sc.udpConn t ++ [Event.resolveUDP true]) = none ∧
          env.dialUDP (udpConnClose sc.udpConn t ++ [Event.resolveUDP true] ++
            [Event.dialUDP none, Event.sleep]) = none ∧
          env.dialUDP (udpConnClose sc.udpConn t ++ [Event.resolveUDP true] ++
            [Event.dialUDP none, Event.sleep, Event.dialUDP none, Event.sleep]) = none))) := by
  rw [reconnectUDP_unfold]
  cases hr : env.resolveUDP (udpConnClose sc.udpConn t) with
  | false =>
    refine ⟨_, _, _, by simp, fun _ => ⟨rfl, rfl, rfl⟩, fun h => by simp at h, ?_⟩
    simp
  | true =>
    simp only [if_true]
    rw [reconnectLoop_unfold]
    generalize udpConnClose sc.udpConn t ++ [Event.resolveUDP true] = t1
    cases h1 : env.dialUDP t1 with
    | some s =>
      refine ⟨_, _, _, rfl, fun h => by simp at h, fun _ => ⟨0, some s, by omega, rfl, ?_, ?_⟩, ?_⟩
      · intro s' hs; cases hs; exact ⟨rfl, rfl⟩
      · intro h; cases h
      · simp [h1]
    | none =>
      cases h2 : env.dialUDP (t1 ++ [Event.dialUDP none, Event.sleep]) with
      | some s =>
        refine ⟨_, _, _, rfl, fun h => by simp at h,
          fun _ => ⟨1, some s, by omega, by simp [retryPattern], ?_, ?_⟩, ?_⟩
        · intro s' hs; cases hs; exact ⟨rfl, rfl⟩
        · intro h; cases h
        · simp [h1, h2]
      | none =>
        cases h3 : env.dialUDP (t1 ++ [Event.dialUDP none, Event.sleep, Event.dialUDP none,
            Event.sleep]) with
        | some s =>
          refine ⟨_, _, _, rfl, fun h => by simp at h,
            fun _ => ⟨2, some s, by omega, by simp [retryPattern], ?_, ?_⟩, ?_⟩
          · intro s' hs; cases hs; exact ⟨rfl, rfl⟩
          · intro h; cases h
          · simp [h1, h2, h3]
        | none =>
          refine ⟨_, _, _, rfl, fun h => by simp at h,
            fun _ => ⟨2, none, by omega, by simp [retryPattern], ?_, ?_⟩, ?_⟩
          · intro s' hs; cases hs
          · intro _; exact ⟨rfl, rfl, rfl⟩
          · simp [h1, h2, h3]


theorem udpWriteCount_append (t u : List Event) :
    udpWriteCount (t ++ u) = udpWriteCount t + udpWriteCount u := by
  induction t with
  | nil => simp [udpWriteCount]
  | cons e t ih =>
    cases e <;> simp [udpWriteCount, ih]
    omega

theorem datagramsToTarget_append (t u : List Event) :
    datagramsToTarget (t ++ u) = datagramsToTarget t ++ datagramsToTarget u := by
  induction t with
  | nil => simp [datagramsToTarget]
  | cons e t ih =>
    cases e with
    | udpWrite s b ok => cases ok <;> simp [datagramsToTarget, ih]
    | _ => simp [datagramsToTarget, ih]

theorem datagramsToPeer_append (addr : String) (t u : List Event) :
    datagramsToPeer addr (t ++ u) = datagramsToPeer addr t ++ datagramsToPeer addr u := by
  induction t with
  | nil => simp [datagramsToPeer]
  | cons e t ih =>
    cases e with
    | udpSendTo a b ok =>
      cases ok
      · simp [datagramsToPeer, ih]
      · by_cases ha : a = addr <;> simp [datagramsToPeer, ih, ha]
    | _ => simp [datagramsToPeer, ih]

theorem retryPattern_no_write (n : Nat) (r : Option Nat) :
    udpWriteCount (retryPattern n r) = 0 ∧ datagramsToTarget (retryPattern n r) = [] := by
  induction n with
  | zero => simp [retryPattern, udpWriteCount, datagramsToTarget]
  | succ n ih => simpa [retryPattern, udpWriteCount, datagramsToTarget] using ih

theorem udpConnClose_no_write (o : Option Nat) (t : List Event) :
    udpWriteCount (udpConnClose o t) = udpWriteCount t ∧
      datagramsToTarget (udpConnClose o t) = datagramsToTarget t := by
  cases o <;>
    simp [udpConnClose, udpWriteCount_append, datagramsToTarget_append, udpWriteCount,
      datagramsToTarget]

/-- Reconnecting always returns, writes nothing to a destination socket, and
leaves a socket installed when it returns no error. -/
theorem reconnectUDP_total (env : Env) (sc : ServerConnection) (t : List Event) :
    ∃ res sc' t', reconnectUDP env sc t = .ok (res, sc', t') ∧
      udpWriteCount t' = udpWriteCount t ∧ datagramsToTarget t' = datagramsToTarget t ∧
      (res = none → ∃ s, sc'.udpConn = some s) := by
  obtain ⟨res, sc', t', hrun, hfalse, htrue, _⟩ := reconnectUDP_shape env sc t
  refine ⟨res, sc', t', hrun, ?_⟩
  cases hr : env.resolveUDP (udpConnClose sc.udpConn t) with
  | false =>
    obtain ⟨h1, _, h3⟩ := hfalse hr
    subst h1 h3
    simp [udpWriteCount_append, datagramsToTarget_append, udpConnClose_no_write, udpWriteCount,
      datagramsToTarget]
  | true =>
    obtain ⟨n, r, _, ht, hsome, hnone⟩ := htrue hr
    subst ht
    refine ⟨?_, ?_, ?_⟩
    · simp [udpWriteCount_append, udpConnClose_no_write, udpWriteCount,
        (retryPattern_no_write n r).1]
    · simp [datagramsToTarget_append, udpConnClose_no_write, datagramsToTarget,
        (retryPattern_no_write n r).2]
    · intro hres
      cases r with
      | none => obtain ⟨_, h, _⟩ := hnone rfl; rw [h] at hres; cases hres
      | some s => obtain ⟨_, h⟩ := hsome s rfl; exact ⟨s, by rw [h]⟩

/-- Claim C10: `reconnectUDP` always returns.  After closing the old socket it
resolves the address; if that fails it returns an error without dialing.
Otherwise the calls it makes are `n ≤ 2` failed dials, each followed by one
delay, and one last dial: if the last dial succeeds its socket is installed and
no error is returned, and if it fails it was the third dial (`n = 2`), no
delay follows it, the socket is unchanged and an error is returned.  So there
are at most 3 dials and 2 delays, and an error is returned exactly when the
resolution or all 3 dials fail. -/
theorem C10_reconnect_is_bounded (env : Env) (sc : ServerConnection) (t : List Event) :
    ∃ res sc' t', reconnectUDP env sc t = .ok (res, sc', t') ∧
      (env.resolveUDP (udpConnClose sc.udpConn t) = false →
        res = some Error.resolveTarget ∧ sc' = sc ∧
          t' = udpConnClose sc.udpConn t ++ [Event.resolveUDP false]) ∧
      (env.resolveUDP (udpConnClose sc.udpConn t) = true →
        ∃ n r, n ≤ 2 ∧
          t' = udpConnClose sc.udpConn t ++ [Event.resolveUDP true] ++ retryPattern n r ∧
          (∀ s, r = some s → res = none ∧ sc' = { sc with udpConn := some s }) ∧
          (r = none → n = 2 ∧ res = some Error.reconnectExhausted ∧ sc' = sc)) ∧
      (res ≠ none ↔ (env.resolveUDP (udpConnClose sc.udpConn t) = false ∨
        (env.dialUDP (udpConnClose sc.udpConn t ++ [Event.resolveUDP true]) = none ∧
          env.dialUDP (udpConnClose sc.udpConn t ++ [Event.resolveUDP true] ++
            [Event.dialUDP none, Event.sleep]) = none ∧
          env.dialUDP (udpConnClose sc.udpConn t ++ [Event.resolveUDP true] ++
            [Event.dialUDP none, Event.sleep, Event.dialUDP none, Event.sleep]) = none))) :=
  reconnectUDP_shape env sc t

/-! ### Destination write recovery (`forwardToUDP`) -/

theorem udpConnWrite_some (env : Env) (s : Nat) (data : List Byte) (t : List Event) :
    udpConnWrite env (some s) data t =
      .ok (env.udpWrite t s data, t ++ [Event.udpWrite s data (env.udpWrite t s data)]) := rfl

/-- Writing to a nil destination socket is a nil dereference. -/
theorem forwardToUDP_nil (env : Env) (sc : ServerConnection) (data : List Byte)
    (t : List Event) (hs : sc.udpConn = none) : forwardToUDP env sc data t = .crash := by
  simp [forwardToUDP, udpConnWrite, hs]

/-- Reconnecting always returns, writes nothing to a destination socket, and
either installs a dialed socket (no error) or leaves the pair as it was. -/
theorem reconnectUDP_result (env : Env) (sc : ServerConnection) (t : List Event) :
    ∃ res sc' t', reconnectUDP env sc t = .ok (res, sc', t') ∧
      udpWriteCount t' = udpWriteCount t ∧ datagramsToTarget t' = datagramsToTarget t ∧
      (res = none → ∃ s, sc' = { sc with udpConn := some s }) ∧
      (res ≠ none → sc' = sc) := by
  obtain ⟨res, sc', t', hrun, hcnt, hdg, _⟩ := reconnectUDP_total env sc t
  obtain ⟨res0, sc0, t0, hrun0, hfalse, htrue, _⟩ := reconnectUDP_shape env sc t
  rw [hrun] at hrun0
  simp only [Outcome.ok.injEq, Prod.mk.injEq] at hrun0
  obtain ⟨h1, h2, h3⟩ := hrun0
  subst h1 h2 h3
  refine ⟨res, sc', t', hrun, hcnt, hdg, ?_, ?_⟩
  · intro hres
    cases hr : env.resolveUDP (udpConnClose sc.udpConn t) with
    | false => obtain ⟨h, _⟩ := hfalse hr; rw [h] at hres; cases hres
    | true =>
      obtain ⟨n, r, _, _, hsome, hnone⟩ := htrue hr
      cases r with
      | none => obtain ⟨_, h, _⟩ := hnone rfl; rw [h] at hres; cases hres
      | some s => exact ⟨s, (hsome s rfl).2⟩
  · intro hres
    cases hr : env.resolveUDP (udpConnClose sc.udpConn t) with
    | false => exact (hfalse hr).2.1
    | true =>
      obtain ⟨n, r, _, _, hsome, hnone⟩ := htrue hr
      cases r with
      | none => exact (hnone rfl).2.2
      | some s => exact absurd (hsome s rfl).1 hres

/-- The three ways `forwardToUDP` can run on a pair with a destination socket. -/
theorem forwardToUDP_shape (env : Env) (sc : ServerConnection) (s : Nat) (data : List Byte)
    (t : List Event) (hs : sc.udpConn = some s) :
    (env.udpWrite t s data = true ∧
      forwardToUDP env sc data t = .ok (none, sc, t ++ [Event.udpWrite s data true])) ∨
    (env.udpWrite t s data = false ∧
      ∃ e t2, reconnectUDP env sc (t ++ [Event.udpWrite s data false]) = .ok (some e, sc, t2) ∧
        udpWriteCount t2 = udpWriteCount t + 1 ∧
        datagramsToTarget t2 = datagramsToTarget t ∧
        forwardToUDP env sc data t = .ok (some Error.udpWrite, sc, t2)) ∨
    (env.udpWrite t s data = false ∧
      ∃ s2 t2, reconnectUDP env sc (t ++ [Event.udpWrite s data false]) =
          .ok (none, { sc with udpConn := some s2 }, t2) ∧
        udpWriteCount t2 = udpWriteCount t + 1 ∧
        datagramsToTarget t2 = datagramsToTarget t ∧
        forwardToUDP env sc data t =
          .ok (if env.udpWrite t2 s2 data then none else some Error.udpWrite,
            { sc with udpConn := some s2 },
            t2 ++ [Event.udpWrite s2 data (env.udpWrite t2 s2 data)])) := by
  unfold forwardToUDP
  rw [hs, udpConnWrite_some]
  cases h1 : env.udpWrite t s data with
  | true => exact Or.inl ⟨rfl, rfl⟩
  | false =>
    refine Or.inr ?_
    obtain ⟨r, sc2, t2, hrec, hcnt, hdg, hnone, hsome⟩ :=
      reconnectUDP_result env sc (t ++ [Event.udpWrite s data false])
    have hcnt' : udpWriteCount t2 = udpWriteCount t + 1 := by
      rw [hcnt, udpWriteCount_append]; simp [udpWriteCount]
    have hdg' : datagramsToTarget t2 = datagramsToTarget t := by
      rw [hdg, datagramsToTarget_append]; simp [datagramsToTarget]
    simp only [hrec]
    cases r with
    | some e =>
      have hsc := hsome (by simp)
      subst hsc
      exact Or.inl ⟨trivial, e, t2, rfl, hcnt', hdg', rfl⟩
    | none =>
      obtain ⟨s2, hs2⟩ := hnone rfl
      subst hs2
      refine Or.inr ⟨trivial, s2, t2, rfl, hcnt', hdg', ?_⟩
      simp only [udpConnWrite_some]
      cases env.udpWrite t2 s2 data <;> rfl

theorem ReadPacket_frameBytes (payload rest : List Byte) (hL : payload.length ≤ 65535) :
    ReadPacket (frameBytes payload ++ rest) = (.ok payload, rest) := by
  unfold frameBytes
  exact ReadPacket_frame payload rest hL

/-- One iteration of the upstream loop on a non-empty frame. -/
theorem handleClientData_step (env : Env) (fuel : Nat) (sc : ServerConnection)
    (data rest : List Byte) (t : List Event) (hne : data ≠ []) (hL : data.length ≤ 65535)
    (hh : carrierOf sc.tcpHandler ≠ none) :
    handleClientData env (fuel + 1) sc (frameBytes data ++ rest) t =
      match forwardToUDP env sc data t with
      | .ok (none, sc1, t1) => handleClientData env fuel sc1 rest t1
      | .ok (some _, sc1, t1) => .ok (sc1, t1)
      | .crash => .crash
      | .timeout => .timeout := by
  have hlen : data.length ≠ 0 := fun h => hne (List.length_eq_zero.mp h)
  obtain ⟨k, hk⟩ := Option.ne_none_iff_exists'.mp hh
  rw [handleClientData, hk, ReadPacket_frameBytes data rest hL]
  simp only [hlen, if_false]

/-- One iteration of the upstream loop on a zero-length frame. -/
theorem handleClientData_zero (env : Env) (fuel : Nat) (sc : ServerConnection)
    (rest : List Byte) (t : List Event) (hh : carrierOf sc.tcpHandler ≠ none) :
    handleClientData env (fuel + 1) sc (frameBytes [] ++ rest) t =
      handleClientData env fuel sc rest t := by
  obtain ⟨k, hk⟩ := Option.ne_none_iff_exists'.mp hh
  rw [handleClientData, hk, ReadPacket_frameBytes [] rest (by simp)]
  simp

/-- Claim C9: on a pair with destination socket `s`, `forwardToUDP` returns.
If the first write succeeds, that one write on `s` is all it does and no error
is returned.  If it fails, `reconnectUDP` runs: when that returns an error,
`forwardToUDP` returns the write error without another write; when it returns
no error, the payload is written once more, on the socket just installed, and
the result is no error exactly when that retried write succeeds.  So no error
is returned exactly when the first write succeeds, or it fails, `reconnectUDP`
returns no error and the retry succeeds; there are one or two writes, two
exactly after a failed first write and a reconnect without error; the payload
reaches the installed socket exactly when no error is returned.  When an error
is returned for the payload of a frame, the upstream loop `handleClientData`
returns at once, leaving the rest of the stream unread. -/
theorem C9_forwardToUDP_recovery (env : Env) (sc : ServerConnection) (s : Nat)
    (data : List Byte) (t : List Event) (hs : sc.udpConn = some s) :
    ∃ res sc' t', forwardToUDP env sc data t = .ok (res, sc', t') ∧
      (env.udpWrite t s data = true →
        res = none ∧ sc' = sc ∧ t' = t ++ [Event.udpWrite s data true]) ∧
      (env.udpWrite t s data = false →
        ∃ r t2, reconnectUDP env sc (t ++ [Event.udpWrite s data false]) = .ok (r, sc', t2) ∧
          (r ≠ none → res = some Error.udpWrite ∧ t' = t2) ∧
          (r = none → ∃ s2, sc'.udpConn = some s2 ∧
            t' = t2 ++ [Event.udpWrite s2 data (env.udpWrite t2 s2 data)] ∧
            res = if env.udpWrite t2 s2 data then none else some Error.udpWrite)) ∧
      (res = none ↔
        (env.udpWrite t s data = true ∨
          (env.udpWrite t s data = false ∧
            ∃ sc2 t2 s2, reconnectUDP env sc (t ++ [Event.udpWrite s data false]) =
                .ok (none, sc2, t2) ∧
              sc2.udpConn = some s2 ∧ env.udpWrite t2 s2 data = true))) ∧
      (res ≠ none → res = some Error.udpWrite) ∧
      udpWriteCount t + 1 ≤ udpWriteCount t' ∧
      udpWriteCount t' ≤ udpWriteCount t + 2 ∧
      (udpWriteCount t' = udpWriteCount t + 2 ↔
        (env.udpWrite t s data = false ∧
          ∃ sc2 t2, reconnectUDP env sc (t ++ [Event.udpWrite s data false]) =
            .ok (none, sc2, t2))) ∧
      (∃ s', sc'.udpConn = some s' ∧
        datagramsToTarget t' = datagramsToTarget t ++ (if res = none then [(s', data)] else [])) ∧
      (res ≠ none → data ≠ [] → data.length ≤ 65535 → carrierOf sc.tcpHandler ≠ none →
        ∀ fuel rest,
          handleClientData env (fuel + 1) sc (frameBytes data ++ rest) t = .ok (sc', t')) := by
  rcases forwardToUDP_shape env sc s data t hs with
    ⟨h1, hrun⟩ | ⟨h1, e, t2, hrec, hcnt, hdg, hrun⟩ | ⟨h1, s2, t2, hrec, hcnt, hdg, hrun⟩
  · refine ⟨_, _, _, hrun, fun _ => ⟨rfl, rfl, rfl⟩, fun h => ?_, ?_, ?_, ?_, ?_, ?_, ?_, ?_⟩
    · rw [h1] at h; cases h
    · simp [h1]
    · intro h; exact absurd rfl h
    · simp [udpWriteCount_append, udpWriteCount]
    · simp [udpWriteCount_append, udpWriteCount]
    · simp [udpWriteCount_append, udpWriteCount, h1]
    · exact ⟨s, hs, by simp [datagramsToTarget_append, datagramsToTarget]⟩
    · intro h; exact absurd rfl h
  · refine ⟨_, _, _, hrun, fun h => ?_, fun _ => ?_, ?_, ?_, ?_, ?_, ?_, ?_, ?_⟩
    · rw [h1] at h; cases h
    · exact ⟨some e, t2, hrec, fun _ => ⟨rfl, rfl⟩, fun h => by cases h⟩
    · simp [h1, hrec]
    · intro _; rfl
    · omega
    · omega
    · simp [hcnt, h1, hrec]
    · exact ⟨s, hs, by simp [hdg]⟩
    · intro _ hne hL hh fuel rest
      rw [handleClientData_step env fuel sc data rest t hne hL hh, hrun]
  · cases hw2 : env.udpWrite t2 s2 data with
    | true =>
      simp only [hw2, if_true] at hrun
      refine ⟨_, _, _, hrun, fun h => ?_, fun _ => ?_, ?_, ?_, ?_, ?_, ?_, ?_, ?_⟩
      · rw [h1] at h; cases h
      · exact ⟨none, t2, hrec, fun h => absurd rfl h, fun _ => ⟨s2, rfl, by rw [hw2], by simp [hw2]⟩⟩
      · simp only [h1, true_iff]
        exact Or.inr ⟨by simp, _, t2, s2, hrec, rfl, hw2⟩
      · intro h; exact absurd rfl h
      · simp only [udpWriteCount_append, hcnt, udpWriteCount]; omega
      · simp only [udpWriteCount_append, hcnt, udpWriteCount]; omega
      · simp [udpWriteCount_append, hcnt, udpWriteCount, h1, hrec]
      · exact ⟨s2, rfl, by simp [datagramsToTarget_append, datagramsToTarget, hdg]⟩
      · intro h; exact absurd rfl h
    | false =>
      simp only [hw2, Bool.false_eq_true, if_false] at hrun
      refine ⟨_, _, _, hrun, fun h => ?_, fun _ => ?_, ?_, ?_, ?_, ?_, ?_, ?_, ?_⟩
      · rw [h1] at h; cases h
      · exact ⟨none, t2, hrec, fun h => absurd rfl h, fun _ => ⟨s2, rfl, by rw [hw2], by simp [hw2]⟩⟩
      · constructor
        · intro h; cases h
        · rintro (h | ⟨_, sc2, t2', s2', hrec', hs2', hw'⟩)
          · rw [h1] at h; cases h
          · rw [hrec] at hrec'
            simp only [Outcome.ok.injEq, Prod.mk.injEq, true_and] at hrec'
            obtain ⟨hsc, ht⟩ := hrec'
            subst hsc ht
            simp only [Option.some.injEq] at hs2'
            subst hs2'
            rw [hw2] at hw'
            cases hw'
      · intro _; rfl
      · simp only [udpWriteCount_append, hcnt, udpWriteCount]; omega
      · simp only [udpWriteCount_append, hcnt, udpWriteCount]; omega
      · simp [udpWriteCount_append, hcnt, udpWriteCount, h1, hrec]
      · exact ⟨s2, rfl, by simp [datagramsToTarget_append, datagramsToTarget, hdg]⟩
      · intro _ hne hL hh fuel rest
        rw [handleClientData_step env fuel sc data rest t hne hL hh, hrun]

theorem C9_forwardToUDP_recovery_witness :
    ∃ res sc' t',
      forwardToUDP envUdpDown ⟨some ⟨some 0⟩, some 1, "client", "target"⟩ [1] [] =
        .ok (res, sc', t') ∧
      res = some Error.udpWrite ∧
      t' = [Event.udpWrite 1 [1] false, Event.udpClose 1, Event.resolveUDP true,
        Event.dialUDP (some 3), Event.udpWrite 3 [1] false] := by
  obtain ⟨res, sc', t', hrun, _, _, _, _, _⟩ :=
    C9_forwardToUDP_recovery envUdpDown ⟨some ⟨some 0⟩, some 1, "client", "target"⟩ 1 [1] [] rfl
  have hval : forwardToUDP envUdpDown ⟨some ⟨some 0⟩, some 1, "client", "target"⟩ [1] [] =
      .ok (some Error.udpWrite, ⟨some ⟨some 0⟩, some 3, "client", "target"⟩,
        [Event.udpWrite 1 [1] false, Event.udpClose 1, Event.resolveUDP true,
          Event.dialUDP (some 3), Event.udpWrite 3 [1] false]) := by decide
  rw [hval] at hrun
  simp only [Outcome.ok.injEq, Prod.mk.injEq] at hrun
  obtain ⟨h1, h2, h3⟩ := hrun
  exact ⟨res, sc', t', by rw [hval, h1, h2, h3], h1.symm, h3.symm⟩

/-! ### Relay loops and zero-length frames -/

/-- One iteration of the response reader on a non-empty frame. -/
theorem responseLoop_step (env : Env) (c : ClientConnection) (fuel : Nat)
    (data rest : List Byte) (t : List Event) (hne : data ≠ []) (hL : data.length ≤ 65535) :
    responseLoop env c (fuel + 1) (frameBytes data ++ rest) t =
      if env.udpSendTo t c.clientAddr data then
        responseLoop env c fuel rest (t ++ [Event.udpSendTo c.clientAddr data true])
      else .ok (t ++ [Event.udpSendTo c.clientAddr data false]) := by
  have hlen : data.length ≠ 0 := fun h => hne (List.length_eq_zero.mp h)
  rw [responseLoop, ReadPacket_frameBytes data rest hL]
  simp only [hlen, if_false, ClientConnection.sendUDPResponse]
  cases h : env.udpSendTo t c.clientAddr data <;> simp

/-- One iteration of the response reader on a zero-length frame. -/
theorem responseLoop_zero (env : Env) (c : ClientConnection) (fuel : Nat)
    (rest : List Byte) (t : List Event) :
    responseLoop env c (fuel + 1) (frameBytes [] ++ rest) t = responseLoop env c fuel rest t := by
  rw [responseLoop, ReadPacket_frameBytes [] rest (by simp)]
  simp

theorem nonEmptyPayloads_nil_cons (ps : List (List Byte)) :
    nonEmptyPayloads ([] :: ps) = nonEmptyPayloads ps := by
  simp [nonEmptyPayloads]

theorem nonEmptyPayloads_cons (p : List Byte) (ps : List (List Byte)) (hne : p ≠ []) :
    nonEmptyPayloads (p :: ps) = p :: nonEmptyPayloads ps := by
  simp [nonEmptyPayloads, hne]

/-- The response reader on a sequence of frames followed by the end of the
stream: it returns; its calls are successful sends to the peer address of an
initial part `sent` of the non-empty payloads, in order, and then either
nothing more (all were sent) or one failed send of the next payload, after
which the loop has returned. -/
theorem responseLoop_frames (env : Env) (c : ClientConnection) (tail : List Byte)
    (htail : ∃ e, (ReadPacket tail).1 = .error e) :
    ∀ (frames : List (List Byte)) (fuel : Nat) (t : List Event),
      (∀ p ∈ frames, p.length ≤ 65535) → frames.length < fuel →
      ∃ t' sent rest, responseLoop env c fuel (frameStream frames ++ tail) t = .ok t' ∧
        nonEmptyPayloads frames = sent ++ rest ∧
        ((rest = [] ∧ t' = t ++ sent.map (fun p => Event.udpSendTo c.clientAddr p true)) ∨
          (∃ p rest', rest = p :: rest' ∧
            env.udpSendTo (t ++ sent.map (fun p => Event.udpSendTo c.clientAddr p true))
              c.clientAddr p = false ∧
            t' = t ++ sent.map (fun p => Event.udpSendTo c.clientAddr p true) ++
              [Event.udpSendTo c.clientAddr p false])) := by
  intro frames
  induction frames with
  | nil =>
    intro fuel t _ hfuel
    obtain ⟨f, rfl⟩ : ∃ f, fuel = f + 1 := ⟨fuel - 1, by simp at hfuel; omega⟩
    obtain ⟨e, he⟩ := htail
    refine ⟨t, [], [], ?_, by simp [nonEmptyPayloads], Or.inl ⟨rfl, by simp⟩⟩
    rw [responseLoop]
    simp only [frameStream, List.nil_append]
    rcases hr : ReadPacket tail with ⟨r, rest⟩
    rw [hr] at he
    simp only at he
    subst he
    rfl
  | cons p ps ih =>
    intro fuel t hlen hfuel
    obtain ⟨f, rfl⟩ : ∃ f, fuel = f + 1 := ⟨fuel - 1, by simp at hfuel; omega⟩
    have hf : ps.length < f := by simp at hfuel; omega
    have hps : ∀ q ∈ ps, q.length ≤ 65535 := fun q hq => hlen q (List.mem_cons_of_mem _ hq)
    have hp : p.length ≤ 65535 := hlen p (List.mem_cons_self _ _)
    have hst : frameStream (p :: ps) ++ tail = frameBytes p ++ (frameStream ps ++ tail) := by
      simp [frameStream]
    rw [hst]
    by_cases hne : p = []
    · subst hne
      rw [responseLoop_zero, nonEmptyPayloads_nil_cons]
      exact ih f t hps hf
    · rw [responseLoop_step env c f p _ t hne hp, nonEmptyPayloads_cons p ps hne]
      cases hs : env.udpSendTo t c.clientAddr p with
      | true =>
        simp only [if_true]
        obtain ⟨t', sent, rest, hrun, hsplit, hshape⟩ :=
          ih f (t ++ [Event.udpSendTo c.clientAddr p true]) hps hf
        refine ⟨t', p :: sent, rest, hrun, by rw [hsplit]; rfl, ?_⟩
        rcases hshape with ⟨hrest, ht'⟩ | ⟨q, rest', hrest, hfail, ht'⟩
        · exact Or.inl ⟨hrest, by rw [ht']; simp⟩
        · refine Or.inr ⟨q, rest', hrest, ?_, by rw [ht']; simp⟩
          simpa using hfail
      | false =>
        refine ⟨t ++ [Event.udpSendTo c.clientAddr p false], [], p :: nonEmptyPayloads ps,
          by simp, by simp, Or.inr ⟨p, nonEmptyPayloads ps, rfl, by simpa using hs, by simp⟩⟩

theorem datagramsToPeer_sent (addr : String) (sent : List (List Byte)) :
    datagramsToPeer addr (sent.map (fun p => Event.udpSendTo addr p true)) = sent := by
  induction sent with
  | nil => rfl
  | cons p ps ih => simp [datagramsToPeer, ih]

theorem Close_datagramsToPeer (addr : String) (c : ClientConnection) (t : List Event) :
    datagramsToPeer addr (c.Close t) = datagramsToPeer addr t := by
  unfold ClientConnection.Close
  split
  · split <;> simp [datagramsToPeer_append, datagramsToPeer]
  · rfl

theorem removeConnection_datagramsToPeer (addr : String) (cl : TunnelClient) (key : String) :
    datagramsToPeer addr (removeConnection cl key).trace = datagramsToPeer addr cl.trace := by
  unfold removeConnection
  split
  · exact Close_datagramsToPeer _ _ _
  · rfl

theorem responseCleanup_datagramsToPeer (addr : String) (c : ClientConnection)
    (cl : TunnelClient) :
    datagramsToPeer addr (responseCleanup c cl).trace = datagramsToPeer addr cl.trace := by
  unfold responseCleanup
  split
  · rw [removeConnection_datagramsToPeer]; exact Close_datagramsToPeer _ _ _
  · exact Close_datagramsToPeer _ _ _

/-- With a socket installed and no failing write, `forwardToUDP` is one write. -/
theorem forwardToUDP_all_ok (env : Env) (sc : ServerConnection) (s : Nat) (data : List Byte)
    (t : List Event) (hs : sc.udpConn = some s) (hok : ∀ u k b, env.udpWrite u k b = true) :
    forwardToUDP env sc data t = .ok (none, sc, t ++ [Event.udpWrite s data true]) := by
  simp [forwardToUDP, udpConnWrite, hs, hok]

/-- A call of `forwardToUDP` on a pair with a destination socket returns, keeps
the handler, leaves a socket installed, and delivers the payload on that socket
exactly when it returns no error. -/
theorem forwardToUDP_facts (env : Env) (sc : ServerConnection) (s : Nat) (data : List Byte)
    (t : List Event) (hs : sc.udpConn = some s) :
    ∃ res sc' t' s', forwardToUDP env sc data t = .ok (res, sc', t') ∧
      sc'.udpConn = some s' ∧ sc'.tcpHandler = sc.tcpHandler ∧
      datagramsToTarget t' = datagramsToTarget t ++ (if res = none then [(s', data)] else []) ∧
      (res ≠ none → res = some Error.udpWrite) := by
  rcases forwardToUDP_shape env sc s data t hs with
    ⟨_, hrun⟩ | ⟨_, e, t2, _, _, hdg, hrun⟩ | ⟨_, s2, t2, _, _, hdg, hrun⟩
  · exact ⟨_, _, _, s, hrun, hs, rfl, by simp [datagramsToTarget_append, datagramsToTarget],
      fun h => absurd rfl h⟩
  · exact ⟨_, _, _, s, hrun, hs, rfl, by simp [hdg], fun _ => rfl⟩
  · cases hw2 : env.udpWrite t2 s2 data with
    | true =>
      simp only [hw2, if_true] at hrun
      exact ⟨_, _, _, s2, hrun, rfl, rfl,
        by simp [datagramsToTarget_append, datagramsToTarget, hdg], fun h => absurd rfl h⟩
    | false =>
      simp only [hw2, Bool.false_eq_true, if_false] at hrun
      exact ⟨_, _, _, s2, hrun, rfl, rfl,
        by simp [datagramsToTarget_append, datagramsToTarget, hdg], fun _ => rfl⟩

/-- Whenever `forwardToUDP` returns, the handler is the one it started with. -/
theorem forwardToUDP_keeps_handler (env : Env) (sc sc' : ServerConnection) (data : List Byte)
    (t t' : List Event) (res : Option Error)
    (h : forwardToUDP env sc data t = .ok (res, sc', t')) : sc'.tcpHandler = sc.tcpHandler := by
  cases hs : sc.udpConn with
  | none => rw [forwardToUDP_nil env sc data t hs] at h; cases h
  | some s =>
    obtain ⟨res0, sc0, t0, _, hrun, _, hh, _⟩ := forwardToUDP_facts env sc s data t hs
    rw [hrun] at h
    simp only [Outcome.ok.injEq, Prod.mk.injEq] at h
    rw [← h.2.1]
    exact hh

/-- The upstream loop on a sequence of frames followed by the end of the
stream is `forwardToUDP` on each non-empty payload in order, until one returns
an error. -/
theorem handleClientData_relay (env : Env) (tail : List Byte)
    (htail : ∃ e, (ReadPacket tail).1 = .error e) :
    ∀ (frames : List (List Byte)) (fuel : Nat) (sc : ServerConnection) (t : List Event),
      (∀ p ∈ frames, p.length ≤ 65535) → frames.length < fuel →
      carrierOf sc.tcpHandler ≠ none →
      handleClientData env fuel sc (frameStream frames ++ tail) t =
        relayTarget env (nonEmptyPayloads frames) sc t := by
  intro frames
  induction frames with
  | nil =>
    intro fuel sc t _ hfuel hh
    obtain ⟨f, rfl⟩ : ∃ f, fuel = f + 1 := ⟨fuel - 1, by simp at hfuel; omega⟩
    obtain ⟨e, he⟩ := htail
    obtain ⟨k, hk⟩ := Option.ne_none_iff_exists'.mp hh
    rw [handleClientData, hk]
    simp only [frameStream, List.nil_append, nonEmptyPayloads, List.filter_nil, relayTarget]
    rcases hr : ReadPacket tail with ⟨r, rest⟩
    rw [hr] at he
    simp only at he
    subst he
    rfl
  | cons p ps ih =>
    intro fuel sc t hlen hfuel hh
    obtain ⟨f, rfl⟩ : ∃ f, fuel = f + 1 := ⟨fuel - 1, by simp at hfuel; omega⟩
    have hf : ps.length < f := by simp at hfuel; omega
    have hps : ∀ q ∈ ps, q.length ≤ 65535 := fun q hq => hlen q (List.mem_cons_of_mem _ hq)
    have hp : p.length ≤ 65535 := hlen p (List.mem_cons_self _ _)
    have hst : frameStream (p :: ps) ++ tail = frameBytes p ++ (frameStream ps ++ tail) := by
      simp [frameStream]
    rw [hst]
    by_cases hne : p = []
    · subst hne
      rw [handleClientData_zero env f sc _ t hh, nonEmptyPayloads_nil_cons]
      exact ih f sc t hps hf hh
    · rw [handleClientData_step env f sc p _ t hne hp hh, nonEmptyPayloads_cons p ps hne,
        relayTarget]
      rcases hfw : forwardToUDP env sc p t with ⟨res, sc1, t1⟩ | _ | _
      · cases res with
        | none =>
          have hh1 : carrierOf sc1.tcpHandler ≠ none := by
            rw [forwardToUDP_keeps_handler env sc sc1 p t t1 none hfw]; exact hh
          exact ih f sc1 t1 hps hf hh1
        | some e => rfl
      · rfl
      · rfl

/-- What the relay of a list of payloads delivers: an initial part `sent` of
the payloads, each on the socket installed at that time, and then either
nothing more (all were delivered) or a `forwardToUDP` of the next payload that
returned the write error, whose result is the result of the loop. -/
theorem relayTarget_datagrams (env : Env) :
    ∀ (ps : List (List Byte)) (sc : ServerConnection) (s : Nat) (t : List Event),
      sc.udpConn = some s →
      ∃ sc' t' sent rest, relayTarget env ps sc t = .ok (sc', t') ∧
        ps = sent.map Prod.snd ++ rest ∧
        datagramsToTarget t' = datagramsToTarget t ++ sent ∧
        (rest = [] ∨ ∃ p rest' scp tp, rest = p :: rest' ∧
          forwardToUDP env scp p tp = .ok (some Error.udpWrite, sc', t')) ∧
        ((∀ u k b, env.udpWrite u k b = true) →
          rest = [] ∧ sc' = sc ∧ t' = t ++ ps.map (fun p => Event.udpWrite s p true)) := by
  intro ps
  induction ps with
  | nil =>
    intro sc s t _
    exact ⟨sc, t, [], [], rfl, rfl, by simp, Or.inl rfl, fun _ => ⟨rfl, rfl, by simp⟩⟩
  | cons p ps ih =>
    intro sc s t hs
    obtain ⟨res, sc1, t1, s1, hrun, hs1, _, hdg, herr⟩ := forwardToUDP_facts env sc s p t hs
    rw [relayTarget, hrun]
    cases res with
    | none =>
      obtain ⟨sc', t', sent, rest, hrel, hsplit, hd, hend, hall⟩ := ih sc1 s1 t1 hs1
      refine ⟨sc', t', (s1, p) :: sent, rest, hrel, by rw [hsplit]; rfl, ?_, hend, ?_⟩
      · rw [hd, hdg]; simp
      · intro hok
        rw [forwardToUDP_all_ok env sc s p t hs hok] at hrun
        simp only [Outcome.ok.injEq, Prod.mk.injEq, true_and] at hrun
        obtain ⟨hsc, ht⟩ := hrun
        subst hsc ht
        rw [hs] at hs1
        cases hs1
        obtain ⟨h1, h2, h3⟩ := hall hok
        exact ⟨h1, h2, by rw [h3]; simp⟩
    | some e =>
      have he := herr (by simp)
      simp only [Option.some.injEq] at he
      subst he
      refine ⟨sc1, t1, [], p :: ps, rfl, rfl, by simpa using hdg,
        Or.inr ⟨p, ps, sc, t, rfl, hrun⟩, ?_⟩
      intro hok
      rw [forwardToUDP_all_ok env sc s p t hs hok] at hrun
      simp at hrun

/-- Claim C5 (as amended): let a sequence of frames, each of at most 65535
bytes, arrive on a carrier connection before the stream ends.  The client
response reader returns; the calls of its loop are successful sends, to the
peer address of the session, of an initial part `sent` of the non-empty
payloads in order, then either nothing more or one failed send of the next
payload, which ends the loop; the datagrams emitted to the peer are `sent`, and
`sent` is all the non-empty payloads when no send fails.  The server upstream
loop, on a pair with a handler and a destination socket, is `forwardToUDP` on
each non-empty payload in order until one returns an error, which ends the
loop; the datagrams it delivers are an initial part of the non-empty payloads,
each on the socket installed at that time, and all of them, on the one socket,
when no write fails.  A zero-length frame is read without error and both loops
go on to the next iteration without any call to a socket. -/
theorem C5_nonempty_payloads_forwarded (env : Env) (frames : List (List Byte))
    (tail : List Byte) (fuel : Nat) (hframes : ∀ p ∈ frames, p.length ≤ 65535)
    (htail : ∃ e, (ReadPacket tail).1 = .error e) (hfuel : frames.length < fuel) :
    (∀ (c : ClientConnection) (cl : TunnelClient), isConnectionValid c = true →
      ∃ t' sent rest,
        c.HandleServerResponse env fuel (frameStream frames ++ tail) cl =
          .ok (responseCleanup c { cl with trace := t' }) ∧
        nonEmptyPayloads frames = sent ++ rest ∧
        ((rest = [] ∧
            t' = cl.trace ++ sent.map (fun p => Event.udpSendTo c.clientAddr p true)) ∨
          (∃ p rest', rest = p :: rest' ∧
            env.udpSendTo (cl.trace ++ sent.map (fun p => Event.udpSendTo c.clientAddr p true))
              c.clientAddr p = false ∧
            t' = cl.trace ++ sent.map (fun p => Event.udpSendTo c.clientAddr p true) ++
              [Event.udpSendTo c.clientAddr p false])) ∧
        datagramsToPeer c.clientAddr (responseCleanup c { cl with trace := t' }).trace =
          datagramsToPeer c.clientAddr cl.trace ++ sent ∧
        ((∀ u a b, env.udpSendTo u a b = true) → sent = nonEmptyPayloads frames)) ∧
    (∀ (sc : ServerConnection) (s : Nat) (t : List Event),
      sc.udpConn = some s → carrierOf sc.tcpHandler ≠ none →
      handleClientData env fuel sc (frameStream frames ++ tail) t =
        relayTarget env (nonEmptyPayloads frames) sc t ∧
      ∃ sc' t' sent rest,
        handleClientData env fuel sc (frameStream frames ++ tail) t = .ok (sc', t') ∧
        nonEmptyPayloads frames = sent.map Prod.snd ++ rest ∧
        datagramsToTarget t' = datagramsToTarget t ++ sent ∧
        (rest = [] ∨ ∃ p rest' scp tp, rest = p :: rest' ∧
          forwardToUDP env scp p tp = .ok (some Error.udpWrite, sc', t')) ∧
        ((∀ u k b, env.udpWrite u k b = true) →
          rest = [] ∧ sc' = sc ∧
            t' = t ++ (nonEmptyPayloads frames).map (fun p => Event.udpWrite s p true))) ∧
    (∀ (c : ClientConnection) (f : Nat) (rest : List Byte) (t : List Event),
      responseLoop env c (f + 1) (frameBytes [] ++ rest) t = responseLoop env c f rest t) ∧
    (∀ (sc : ServerConnection) (f : Nat) (rest : List Byte) (t : List Event),
      carrierOf sc.tcpHandler ≠ none →
      handleClientData env (f + 1) sc (frameBytes [] ++ rest) t =
        handleClientData env f sc rest t) ∧
    (∀ rest : List Byte, ReadPacket (frameBytes [] ++ rest) = (.ok [], rest)) := by
  refine ⟨?_, ?_, ?_, ?_, fun rest => ReadPacket_frameBytes [] rest (by simp)⟩
  · intro c cl hvalid
    obtain ⟨t', sent, rest, hrun, hsplit, hshape⟩ :=
      responseLoop_frames env c tail htail frames fuel cl.trace hframes hfuel
    refine ⟨t', sent, rest, ?_, hsplit, hshape, ?_, ?_⟩
    · simp [ClientConnection.HandleServerResponse, hvalid, hrun]
    · rw [responseCleanup_datagramsToPeer]
      rcases hshape with ⟨_, ht'⟩ | ⟨q, rest', _, _, ht'⟩
      · simp [ht', datagramsToPeer_append, datagramsToPeer_sent]
      · simp [ht', datagramsToPeer_append, datagramsToPeer_sent, datagramsToPeer]
    · intro hok
      rcases hshape with ⟨hrest, _⟩ | ⟨q, rest', _, hfail, _⟩
      · rw [hsplit, hrest]; simp
      · rw [hok] at hfail; cases hfail
  · intro sc s t hs hh
    have heq := handleClientData_relay env tail htail frames fuel sc t hframes hfuel hh
    refine ⟨heq, ?_⟩
    rw [heq]
    exact relayTarget_datagrams env (nonEmptyPayloads frames) sc s t hs
  · intro c f rest t
    exact responseLoop_zero env c f rest t
  · intro sc f rest t hh
    exact handleClientData_zero env f sc rest t hh

theorem C5_nonempty_payloads_forwarded_witness :
    (∃ cl',
      ClientConnection.HandleServerResponse envAllOk ⟨some ⟨some 0⟩, "peer", true⟩ 4
        (frameStream [[1], [], [2, 3]] ++ []) ⟨fun _ => none, []⟩ = .ok cl' ∧
      datagramsToPeer "peer" cl'.trace = [[1], [2, 3]]) ∧
    (∃ sc' t',
      handleClientData envAllOk 4 ⟨some ⟨some 0⟩, some 1, "client", "target"⟩
        (frameStream [[1], [], [2, 3]] ++ []) [] = .ok (sc', t') ∧
      t' = [Event.udpWrite 1 [1] true, Event.udpWrite 1 [2, 3] true]) := by
  have h := C5_nonempty_payloads_forwarded envAllOk [[1], [], [2, 3]] [] 4
    (by decide) ⟨Error.readLength, by decide⟩ (by decide)
  constructor
  · obtain ⟨t', sent, rest, hrun, _, _, hd, hall⟩ :=
      h.1 ⟨some ⟨some 0⟩, "peer", true⟩ ⟨fun _ => none, []⟩ rfl
    refine ⟨_, hrun, ?_⟩
    rw [hd, hall (fun _ _ _ => rfl)]
    decide
  · obtain ⟨_, sc', t', sent, rest, hrun, _, _, _, hall⟩ :=
      h.2.1 ⟨some ⟨some 0⟩, some 1, "client", "target"⟩ 1 [] rfl (by decide)
    refine ⟨sc', t', hrun, ?_⟩
    rw [(hall (fun _ _ _ => rfl)).2.2]
    decide

/-- Claim C5 (counterexample): the single frame with payload `[1]` arrives and
the datagram write fails.  The response reader and the upstream loop both
return, and neither has emitted the non-empty payload `[1]`. -/
theorem C5_counterexample_failed_datagram_write :
    (∃ cl',
      ClientConnection.HandleServerResponse envUdpDown ⟨some ⟨some 0⟩, "peer", true⟩ 2
        (frameStream [[1]]) ⟨fun _ => none, []⟩ = .ok cl' ∧
      cl'.trace = [Event.udpSendTo "peer" [1] false, Event.tcpClose 0] ∧
      datagramsToPeer "peer" cl'.trace = [] ∧
      datagramsToPeer "peer" cl'.trace ≠ nonEmptyPayloads [[1]]) ∧
    (∃ sc' t',
      handleClientData envUdpDown 2 ⟨some ⟨some 0⟩, some 1, "client", "target"⟩
        (frameStream [[1]]) [] = .ok (sc', t') ∧
      t' = [Event.udpWrite 1 [1] false, Event.udpClose 1, Event.resolveUDP true,
        Event.dialUDP (some 3), Event.udpWrite 3 [1] false] ∧
      datagramsToTarget t' = [] ∧
      (datagramsToTarget t').map Prod.snd ≠ nonEmptyPayloads [[1]]) := by
  constructor
  · exact ⟨_, rfl, by decide, by decide, by decide⟩
  · exact ⟨_, _, rfl, by decide, by decide, by decide⟩

/-! ### Client session table (`forwardToServer`) -/

theorem dialCount_append (t u : List Event) : dialCount (t ++ u) = dialCount t + dialCount u := by
  induction t with
  | nil => simp [dialCount]
  | cons e t ih =>
    cases e <;> simp [dialCount, ih]
    omega

/-- On a handler with a connection `WritePacket` returns, and all it does is
write on that connection. -/
theorem WritePacket_total (env : Env) (c : Nat) (data : List Byte) (t : List Event) :
    ∃ r evs, WritePacket env ⟨some c⟩ data t = .ok (r, t ++ evs) ∧ dialCount evs = 0 ∧
      (r = none → evs = [Event.tcpWrite c (PutUint16 (uint16 data.length)) true,
        Event.tcpWrite c data true]) ∧
      (r ≠ none → (r = some Error.writeLength ∧
          evs = [Event.tcpWrite c (PutUint16 (uint16 data.length)) false]) ∨
        (r = some Error.writeData ∧
          evs = [Event.tcpWrite c (PutUint16 (uint16 data.length)) true,
            Event.tcpWrite c data false])) := by
  rw [WritePacket_some env ⟨some c⟩ c data t rfl]
  by_cases h1 : env.tcpWrite t c (PutUint16 (uint16 data.length)) = true
  · by_cases h2 : env.tcpWrite (t ++ [Event.tcpWrite c (PutUint16 (uint16 data.length)) true])
        c data = true
    · refine ⟨none, [Event.tcpWrite c (PutUint16 (uint16 data.length)) true,
        Event.tcpWrite c data true], ?_, ?_, ?_, ?_⟩
      · simp only [h1, h2, if_true]
      · simp [dialCount]
      · intro _; rfl
      · intro h; exact absurd rfl h
    · refine ⟨some Error.writeData, [Event.tcpWrite c (PutUint16 (uint16 data.length)) true,
        Event.tcpWrite c data false], ?_, ?_, ?_, ?_⟩
      · simp [h1, h2]
      · simp [dialCount]
      · intro h; cases h
      · intro _; exact Or.inr ⟨rfl, rfl⟩
  · refine ⟨some Error.writeLength, [Event.tcpWrite c (PutUint16 (uint16 data.length)) false],
      ?_, ?_, ?_, ?_⟩
    · simp [h1]
    · simp [dialCount]
    · intro h; cases h
    · intro _; exact Or.inl ⟨rfl, rfl⟩

/-- A session found in the table and valid is used as it is. -/
theorem forwardToServer_reuse (env : Env) (cl : TunnelClient) (key : String)
    (data : List Byte) (conn : ClientConnection) (k : Nat)
    (hc : cl.connections key = some conn) (hk : conn.tcpHandler = some ⟨some k⟩) :
    forwardToServer env cl key data =
      match WritePacket env ⟨some k⟩ data cl.trace with
      | .ok (some err, t) =>
        .ok (some err,
          { connections := mapDelete cl.connections key, trace := t ++ [Event.tcpClose k] })
      | .ok (none, t) => .ok (none, { cl with trace := t })
      | .crash => .crash
      | .timeout => .timeout := by
  obtain ⟨r, evs, hw, _⟩ := WritePacket_total env k data cl.trace
  simp only [forwardToServer, hc, isConnectionValid, hk, if_true,
    ClientConnection.SendToServer, hw]
  cases r with
  | none => rfl
  | some e => simp [removeConnection, hc, ClientConnection.Close, hk]

/-- Removing an absent or invalid session makes no call. -/
theorem removeConnection_stale (cl : TunnelClient) (key : String)
    (hneed : ∀ conn, cl.connections key = some conn → isConnectionValid conn = false) :
    (removeConnection cl key).trace = cl.trace ∧
      (removeConnection cl key).connections key = none ∧
      ∀ k', k' ≠ key → (removeConnection cl key).connections k' = cl.connections k' := by
  unfold removeConnection
  cases hc : cl.connections key with
  | none => exact ⟨rfl, hc, fun _ _ => rfl⟩
  | some conn =>
    have hv := hneed conn hc
    refine ⟨?_, by simp [mapDelete], fun k' hk' => by simp [mapDelete, hk']⟩
    simp only [ClientConnection.Close]
    unfold isConnectionValid at hv
    cases hh : conn.tcpHandler with
    | none => rfl
    | some h =>
      rw [hh] at hv
      cases hcn : h.conn with
      | none => simp [hcn]
      | some k => simp [hcn] at hv

/-- Without a valid session in the table, the call dials first. -/
theorem forwardToServer_new (env : Env) (cl : TunnelClient) (key : String) (data : List Byte)
    (hneed : ∀ conn, cl.connections key = some conn → isConnectionValid conn = false) :
    forwardToServer env cl key data =
      match env.dialTCP cl.trace with
      | none =>
        .ok (some Error.createConnection,
          { connections := (removeConnection cl key).connections,
            trace := cl.trace ++ [Event.dialTCP none] })
      | some k =>
        match WritePacket env ⟨some k⟩ data
            (cl.trace ++ [Event.dialTCP (some k), Event.spawnReader k]) with
        | .ok (some err, t) =>
          .ok (some err,
            { connections := mapDelete (mapInsert (removeConnection cl key).connections key
                ⟨some ⟨some k⟩, key, true⟩) key,
              trace := t ++ [Event.tcpClose k] })
        | .ok (none, t) =>
          .ok (none,
            { connections := mapInsert (removeConnection cl key).connections key
                ⟨some ⟨some k⟩, key, true⟩,
              trace := t })
        | .crash => .crash
        | .timeout => .timeout := by
  have htr := (removeConnection_stale cl key hneed).1
  have hstep : (match cl.connections key with
      | none => createClientConnection env cl key
      | some conn =>
        if isConnectionValid conn then (Except.ok conn, cl)
        else createClientConnection env (removeConnection cl key) key) =
      createClientConnection env (removeConnection cl key) key := by
    cases hc : cl.connections key with
    | none => simp [removeConnection, hc]
    | some conn => simp [hneed conn hc]
  unfold forwardToServer
  simp only [hstep]
  unfold createClientConnection
  rw [htr]
  cases hd : env.dialTCP cl.trace with
  | none => rfl
  | some k =>
    obtain ⟨r, evs, hw, _⟩ :=
      WritePacket_total env k data (cl.trace ++ [Event.dialTCP (some k), Event.spawnReader k])
    simp only [ClientConnection.SendToServer, NewTCPPacketHandler, hw]
    cases r with
    | none => rfl
    | some e => simp [removeConnection, mapInsert, ClientConnection.Close]

/-- Claim C7: when the table holds no valid session for the peer and the dial
fails, `forwardToServer` returns an error; the only call it makes is the failed
dial (no write, no response reader started); afterwards the table has no entry
for the peer key and the entries of all other keys are unchanged. -/
theorem C7_dial_failure_registers_nothing (env : Env) (cl : TunnelClient) (key : String)
    (data : List Byte)
    (hneed : ∀ conn, cl.connections key = some conn → isConnectionValid conn = false)
    (hdial : env.dialTCP cl.trace = none) :
    ∃ cl', forwardToServer env cl key data = .ok (some Error.createConnection, cl') ∧
      cl'.trace = cl.trace ++ [Event.dialTCP none] ∧
      cl'.connections key = none ∧
      ∀ k', k' ≠ key → cl'.connections k' = cl.connections k' := by
  rw [forwardToServer_new env cl key data hneed, hdial]
  obtain ⟨_, hkey, hother⟩ := removeConnection_stale cl key hneed
  exact ⟨_, rfl, rfl, hkey, hother⟩

theorem C7_dial_failure_registers_nothing_witness :
    ∃ cl', forwardToServer envNoCarrier
        ⟨fun k => if k = "old" then some ⟨some ⟨some 5⟩, "old", true⟩ else none, []⟩ "peer" [1] =
          .ok (some Error.createConnection, cl') ∧
      cl'.trace = [] ++ [Event.dialTCP none] ∧
      cl'.connections "peer" = none ∧
      ∀ k', k' ≠ "peer" → cl'.connections k' =
        (fun k => if k = "old" then some ⟨some ⟨some 5⟩, "old", true⟩ else none) k' :=
  C7_dial_failure_registers_nothing envNoCarrier
    ⟨fun k => if k = "old" then some ⟨some ⟨some 5⟩, "old", true⟩ else none, []⟩ "peer" [1]
    (by intro conn h; simp at h) rfl

theorem isConnectionValid_iff (conn : ClientConnection) :
    isConnectionValid conn = true ↔ ∃ k, conn.tcpHandler = some ⟨some k⟩ := by
  unfold isConnectionValid
  cases hh : conn.tcpHandler with
  | none => simp
  | some h =>
    obtain ⟨c⟩ := h
    cases c <;> simp

/-- The table either holds a valid session for the key, or none that is valid. -/
theorem session_valid_or_stale (cl : TunnelClient) (key : String) :
    (∃ conn k, cl.connections key = some conn ∧ conn.tcpHandler = some ⟨some k⟩) ∨
      (∀ conn, cl.connections key = some conn → isConnectionValid conn = false) := by
  cases hc : cl.connections key with
  | none => exact Or.inr (fun _ h => by cases h)
  | some conn =>
    cases hv : isConnectionValid conn with
    | true =>
      obtain ⟨k, hk⟩ := (isConnectionValid_iff conn).mp hv
      exact Or.inl ⟨conn, k, rfl, hk⟩
    | false =>
      refine Or.inr (fun c h => ?_)
      cases h
      exact hv

/-- A call for a peer without a table entry starts with a dial, and on success
registers the session made on the dialed connection. -/
theorem forwardToServer_absent (env : Env) (cl : TunnelClient) (key : String)
    (data : List Byte) (habs : cl.connections key = none) :
    ∃ r cl2 evs, forwardToServer env cl key data = .ok (r, cl2) ∧
      cl2.trace = cl.trace ++ Event.dialTCP (env.dialTCP cl.trace) :: evs ∧
      (∀ k2, env.dialTCP cl.trace = some k2 → r = none →
        cl2.connections key = some ⟨some ⟨some k2⟩, key, true⟩) := by
  rw [forwardToServer_new env cl key data (fun c h => by rw [habs] at h; cases h)]
  cases hd : env.dialTCP cl.trace with
  | none => exact ⟨_, _, [], rfl, rfl, fun _ h => by cases h⟩
  | some k =>
    obtain ⟨r, evs, hw, _⟩ :=
      WritePacket_total env k data (cl.trace ++ [Event.dialTCP (some k), Event.spawnReader k])
    simp only [hw]
    cases r with
    | none =>
      refine ⟨_, _, Event.spawnReader k :: evs, rfl, by simp, ?_⟩
      intro k2 hk2 _
      cases hk2
      simp [mapInsert]
    | some e =>
      refine ⟨_, _, Event.spawnReader k :: (evs ++ [Event.tcpClose k]), rfl, by simp, ?_⟩
      intro _ _ h
      cases h

/-- When `forwardToServer` returns a write error, it comes from the framed
write on the carrier connection `k` of the session in use, and the call ends
as after any failed framed write. -/
theorem forwardToServer_write_error_source (env : Env) (cl cl' : TunnelClient) (key : String)
    (data : List Byte) (e : Error)
    (hrun : forwardToServer env cl key data = .ok (some e, cl'))
    (he : e = Error.writeLength ∨ e = Error.writeData) :
    ∃ k t0 tw,
      ((∃ conn, cl.connections key = some conn ∧ conn.tcpHandler = some ⟨some k⟩ ∧
          t0 = cl.trace) ∨
        ((∀ conn, cl.connections key = some conn → isConnectionValid conn = false) ∧
          env.dialTCP cl.trace = some k ∧
          t0 = cl.trace ++ [Event.dialTCP (some k), Event.spawnReader k])) ∧
      WritePacket env ⟨some k⟩ data t0 = .ok (some e, tw) ∧
      cl'.trace = tw ++ [Event.tcpClose k] ∧
      dialCount cl'.trace = dialCount t0 ∧
      cl'.connections key = none ∧
      (∀ k', k' ≠ key → cl'.connections k' = cl.connections k') ∧
      (∀ (cl'' : TunnelClient) (data2 : List Byte), cl''.connections key = none →
        ∃ r cl2 evs, forwardToServer env cl'' key data2 = .ok (r, cl2) ∧
          cl2.trace = cl''.trace ++ Event.dialTCP (env.dialTCP cl''.trace) :: evs ∧
          (∀ k2, env.dialTCP cl''.trace = some k2 → r = none →
            cl2.connections key = some ⟨some ⟨some k2⟩, key, true⟩)) := by
  have hnext : ∀ (cl'' : TunnelClient) (data2 : List Byte), cl''.connections key = none →
      ∃ r cl2 evs, forwardToServer env cl'' key data2 = .ok (r, cl2) ∧
        cl2.trace = cl''.trace ++ Event.dialTCP (env.dialTCP cl''.trace) :: evs ∧
        (∀ k2, env.dialTCP cl''.trace = some k2 → r = none →
          cl2.connections key = some ⟨some ⟨some k2⟩, key, true⟩) :=
    fun cl'' data2 h => forwardToServer_absent env cl'' key data2 h
  rcases session_valid_or_stale cl key with ⟨conn, k, hc, hk⟩ | hneed
  · rw [forwardToServer_reuse env cl key data conn k hc hk] at hrun
    obtain ⟨r, evs, hw, hdc, _⟩ := WritePacket_total env k data cl.trace
    rw [hw] at hrun
    cases r with
    | none => simp at hrun
    | some e' =>
      simp only [Outcome.ok.injEq, Prod.mk.injEq, Option.some.injEq] at hrun
      obtain ⟨he', hcl⟩ := hrun
      subst he' hcl
      refine ⟨k, cl.trace, cl.trace ++ evs, Or.inl ⟨conn, hc, hk, rfl⟩, hw, rfl, ?_, ?_, ?_,
        hnext⟩
      · simp [dialCount_append, hdc, dialCount]
      · simp [mapDelete]
      · intro k' hk'
        simp [mapDelete, hk']
  · rw [forwardToServer_new env cl key data hneed] at hrun
    obtain ⟨_, _, hother⟩ := removeConnection_stale cl key hneed
    cases hd : env.dialTCP cl.trace with
    | none =>
      rw [hd] at hrun
      simp only [Outcome.ok.injEq, Prod.mk.injEq, Option.some.injEq] at hrun
      rcases he with h | h <;> rw [h] at hrun <;> cases hrun.1
    | some k =>
      rw [hd] at hrun
      obtain ⟨r, evs, hw, hdc, _⟩ :=
        WritePacket_total env k data (cl.trace ++ [Event.dialTCP (some k), Event.spawnReader k])
      simp only [hw] at hrun
      cases r with
      | none => simp at hrun
      | some e' =>
        simp only [Outcome.ok.injEq, Prod.mk.injEq, Option.some.injEq] at hrun
        obtain ⟨he', hcl⟩ := hrun
        subst he' hcl
        refine ⟨k, _, _, Or.inr ⟨hneed, rfl, rfl⟩, hw, rfl, ?_, ?_, ?_, hnext⟩
        · simp [dialCount_append, hdc, dialCount]
        · simp [mapDelete]
        · intro k' hk'
          simp [mapDelete, mapInsert, hk', hother k' hk']

/-- A call for a peer without a table entry: a failed dial is all it does;
after a successful dial on `k2` it starts the reader and makes its framed write
on `k2`, registering the session when the write succeeds and closing `k2`
when it fails. -/
theorem forwardToServer_absent_shape (env : Env) (cl : TunnelClient) (key : String)
    (data : List Byte) (habs : cl.connections key = none) :
    ∃ r cl2, forwardToServer env cl key data = .ok (r, cl2) ∧
      (env.dialTCP cl.trace = none →
        r = some Error.createConnection ∧ cl2.trace = cl.trace ++ [Event.dialTCP none] ∧
          cl2.connections key = none) ∧
      (∀ k2, env.dialTCP cl.trace = some k2 →
        ∃ tw2, WritePacket env ⟨some k2⟩ data
            (cl.trace ++ [Event.dialTCP (some k2), Event.spawnReader k2]) = .ok (r, tw2) ∧
          (r = none → cl2.trace = tw2 ∧
            cl2.connections key = some ⟨some ⟨some k2⟩, key, true⟩) ∧
          (r ≠ none → cl2.trace = tw2 ++ [Event.tcpClose k2] ∧ cl2.connections key = none)) := by
  have hneed : ∀ conn, cl.connections key = some conn → isConnectionValid conn = false :=
    fun c h => by rw [habs] at h; cases h
  rw [forwardToServer_new env cl key data hneed]
  cases hd : env.dialTCP cl.trace with
  | none =>
    refine ⟨_, _, rfl, fun _ => ⟨rfl, rfl, (removeConnection_stale cl key hneed).2.1⟩,
      fun k2 h => by cases h⟩
  | some k =>
    obtain ⟨r, evs, hw, _⟩ :=
      WritePacket_total env k data (cl.trace ++ [Event.dialTCP (some k), Event.spawnReader k])
    simp only [hw]
    cases r with
    | none =>
      refine ⟨_, _, rfl, fun h => (by cases h), fun k2 hk2 => ?_⟩
      cases hk2
      exact ⟨_, hw, fun _ => ⟨rfl, by simp [mapInsert]⟩, fun h => absurd rfl h⟩
    | some e =>
      refine ⟨_, _, rfl, fun h => (by cases h), fun k2 hk2 => ?_⟩
      cases hk2
      exact ⟨_, hw, fun h => (by cases h), fun _ => ⟨rfl, by simp [mapDelete]⟩⟩

/-- Claim C8: let the session in use for a peer be on carrier connection `k`
(the valid session of the table, or one just dialed and registered because the
table had none), and let the framed write `WritePacket` on `k` fail with error
`e`.  Then `forwardToServer` returns `e`; the write was the failed write of the
length prefix, or the prefix and the failed write of the payload; after it the
call only closes `k` (no second write, no dial); on return the table has no
entry for the peer key and the entries of other keys are unchanged.  The next
`forwardToServer` for the peer starts with a dial; if the dial fails nothing
is registered, and if it succeeds on `k2` the framed write goes to `k2` and
the session on `k2` is registered when it succeeds. -/
theorem C8_write_failure_evicts (env : Env) (cl : TunnelClient) (key : String)
    (data : List Byte) (k : Nat) (t0 tw : List Event) (e : Error)
    (hsess : (∃ conn, cl.connections key = some conn ∧ conn.tcpHandler = some ⟨some k⟩ ∧
          t0 = cl.trace) ∨
        ((∀ conn, cl.connections key = some conn → isConnectionValid conn = false) ∧
          env.dialTCP cl.trace = some k ∧
          t0 = cl.trace ++ [Event.dialTCP (some k), Event.spawnReader k]))
    (hfail : WritePacket env ⟨some k⟩ data t0 = .ok (some e, tw)) :
    ∃ cl', forwardToServer env cl key data = .ok (some e, cl') ∧
      ((e = Error.writeLength ∧
          tw = t0 ++ [Event.tcpWrite k (PutUint16 (uint16 data.length)) false]) ∨
        (e = Error.writeData ∧
          tw = t0 ++ [Event.tcpWrite k (PutUint16 (uint16 data.length)) true,
            Event.tcpWrite k data false])) ∧
      cl'.trace = tw ++ [Event.tcpClose k] ∧
      dialCount cl'.trace = dialCount t0 ∧
      cl'.connections key = none ∧
      (∀ k', k' ≠ key → cl'.connections k' = cl.connections k') ∧
      (∀ data2 : List Byte,
        ∃ r cl2 evs, forwardToServer env cl' key data2 = .ok (r, cl2) ∧
          cl2.trace = cl'.trace ++ Event.dialTCP (env.dialTCP cl'.trace) :: evs ∧
          (env.dialTCP cl'.trace = none →
            r = some Error.createConnection ∧ evs = [] ∧ cl2.connections key = none) ∧
          (∀ k2, env.dialTCP cl'.trace = some k2 →
            ∃ tw2, WritePacket env ⟨some k2⟩ data2
                (cl'.trace ++ [Event.dialTCP (some k2), Event.spawnReader k2]) = .ok (r, tw2) ∧
              (r = none → cl2.trace = tw2 ∧
                cl2.connections key = some ⟨some ⟨some k2⟩, key, true⟩))) := by
  obtain ⟨r, evs, hw, hdc, _, herr⟩ := WritePacket_total env k data t0
  rw [hfail] at hw
  simp only [Outcome.ok.injEq, Prod.mk.injEq] at hw
  obtain ⟨hr, htw⟩ := hw
  subst hr htw
  have hshape : (e = Error.writeLength ∧
        t0 ++ evs = t0 ++ [Event.tcpWrite k (PutUint16 (uint16 data.length)) false]) ∨
      (e = Error.writeData ∧
        t0 ++ evs = t0 ++ [Event.tcpWrite k (PutUint16 (uint16 data.length)) true,
          Event.tcpWrite k data false]) := by
    rcases herr (by simp) with ⟨h1, h2⟩ | ⟨h1, h2⟩
    · exact Or.inl ⟨Option.some.inj h1, by rw [h2]⟩
    · exact Or.inr ⟨Option.some.inj h1, by rw [h2]⟩
  have hnext : ∀ (cl' : TunnelClient), cl'.connections key = none → ∀ data2 : List Byte,
      ∃ r cl2 evs, forwardToServer env cl' key data2 = .ok (r, cl2) ∧
        cl2.trace = cl'.trace ++ Event.dialTCP (env.dialTCP cl'.trace) :: evs ∧
        (env.dialTCP cl'.trace = none →
          r = some Error.createConnection ∧ evs = [] ∧ cl2.connections key = none) ∧
        (∀ k2, env.dialTCP cl'.trace = some k2 →
          ∃ tw2, WritePacket env ⟨some k2⟩ data2
              (cl'.trace ++ [Event.dialTCP (some k2), Event.spawnReader k2]) = .ok (r, tw2) ∧
            (r = none → cl2.trace = tw2 ∧
              cl2.connections key = some ⟨some ⟨some k2⟩, key, true⟩)) := by
    intro cl' habs data2
    obtain ⟨r1, cl2, evs1, hrun1, htr1, _⟩ := forwardToServer_absent env cl' key data2 habs
    obtain ⟨r2, cl2', hrun2, hnone2, hsome2⟩ := forwardToServer_absent_shape env cl' key data2 habs
    rw [hrun1] at hrun2
    simp only [Outcome.ok.injEq, Prod.mk.injEq] at hrun2
    obtain ⟨hr, hcl⟩ := hrun2
    subst hr hcl
    refine ⟨r1, cl2, evs1, hrun1, htr1, ?_, ?_⟩
    · intro hd
      obtain ⟨h1, h2, h3⟩ := hnone2 hd
      refine ⟨h1, ?_, h3⟩
      rw [h2, hd] at htr1
      have := List.append_cancel_left htr1
      simpa using this.symm
    · intro k2 hk2
      obtain ⟨tw2, hw2, hok2, _⟩ := hsome2 k2 hk2
      exact ⟨tw2, hw2, hok2⟩
  rcases hsess with ⟨conn, hc, hk, ht0⟩ | ⟨hneed, hd, ht0⟩
  · subst ht0
    rw [forwardToServer_reuse env cl key data conn k hc hk, hfail]
    refine ⟨_, rfl, hshape, rfl, ?_, by simp [mapDelete], fun k' hk' => by simp [mapDelete, hk'],
      hnext _ (by simp [mapDelete])⟩
    simp [dialCount_append, hdc, dialCount]
  · subst ht0
    obtain ⟨_, _, hother⟩ := removeConnection_stale cl key hneed
    rw [forwardToServer_new env cl key data hneed, hd]
    simp only [hfail]
    refine ⟨_, rfl, hshape, rfl, ?_, by simp [mapDelete],
      fun k' hk' => by simp [mapDelete, mapInsert, hk', hother k' hk'],
      hnext _ (by simp [mapDelete])⟩
    simp [dialCount_append, hdc, dialCount]

theorem C8_write_failure_evicts_witness :
    ∃ cl', forwardToServer envCarrierDown ⟨fun _ => none, []⟩ "peer" [1] =
        .ok (some Error.writeLength, cl') ∧
      cl'.trace = [Event.dialTCP (some 0), Event.spawnReader 0, Event.tcpWrite 0 [0, 1] false,
        Event.tcpClose 0] ∧
      cl'.connections "peer" = none := by
  obtain ⟨cl', hrun, _, htr, _, hkey, _⟩ :=
    C8_write_failure_evicts envCarrierDown ⟨fun _ => none, []⟩ "peer" [1] 0
      [Event.dialTCP (some 0), Event.spawnReader 0]
      [Event.dialTCP (some 0), Event.spawnReader 0, Event.tcpWrite 0 [0, 1] false]
      Error.writeLength (Or.inr ⟨fun _ h => (by cases h), rfl, rfl⟩) (by decide)
  exact ⟨cl', hrun, htr, hkey⟩

/-- Claim C6 (as amended): if `forwardToServer` for a peer returns no error,
the table then holds a valid session for the peer key, the call made at most
one dial and its frame was written on that session's carrier connection `k`.
If the next call for the peer finds that session in the table, it makes no
dial and makes its framed write on the same connection `k`; when that write
succeeds the table is unchanged (it still holds that session under the key),
and when it fails the entry is removed and the connection closed. -/
theorem C6_session_reuse (env : Env) (cl cl1 : TunnelClient) (key : String) (d1 : List Byte)
    (h1 : forwardToServer env cl key d1 = .ok (none, cl1)) :
    ∃ conn k,
      cl1.connections key = some conn ∧ conn.tcpHandler = some ⟨some k⟩ ∧
      dialCount cl1.trace ≤ dialCount cl.trace + 1 ∧
      (∃ t0, cl1.trace = t0 ++ [Event.tcpWrite k (PutUint16 (uint16 d1.length)) true,
        Event.tcpWrite k d1 true]) ∧
      ∀ (cl' : TunnelClient) (d2 : List Byte), cl'.connections key = some conn →
        ∃ r tw cl2, WritePacket env ⟨some k⟩ d2 cl'.trace = .ok (r, tw) ∧
          forwardToServer env cl' key d2 = .ok (r, cl2) ∧
          dialCount cl2.trace = dialCount cl'.trace ∧
          (r = none → cl2.trace = tw ∧ cl2.connections = cl'.connections) ∧
          (r ≠ none → cl2.trace = tw ++ [Event.tcpClose k] ∧ cl2.connections key = none) := by
  have hsecond : ∀ (conn : ClientConnection) (k : Nat), conn.tcpHandler = some ⟨some k⟩ →
      ∀ (cl' : TunnelClient) (d2 : List Byte), cl'.connections key = some conn →
        ∃ r tw cl2, WritePacket env ⟨some k⟩ d2 cl'.trace = .ok (r, tw) ∧
          forwardToServer env cl' key d2 = .ok (r, cl2) ∧
          dialCount cl2.trace = dialCount cl'.trace ∧
          (r = none → cl2.trace = tw ∧ cl2.connections = cl'.connections) ∧
          (r ≠ none → cl2.trace = tw ++ [Event.tcpClose k] ∧ cl2.connections key = none) := by
    intro conn k hk cl' d2 hc'
    obtain ⟨r, evs, hw, hdc, _⟩ := WritePacket_total env k d2 cl'.trace
    rw [forwardToServer_reuse env cl' key d2 conn k hc' hk, hw]
    cases r with
    | none =>
      exact ⟨none, _, _, rfl, rfl, by simp [dialCount_append, hdc], fun _ => ⟨rfl, rfl⟩,
        fun h => absurd rfl h⟩
    | some e =>
      refine ⟨some e, _, _, rfl, rfl, by simp [dialCount_append, hdc, dialCount],
        fun h => (by cases h), fun _ => ⟨rfl, by simp [mapDelete]⟩⟩
  rcases session_valid_or_stale cl key with ⟨conn, k, hc, hk⟩ | hneed
  · rw [forwardToServer_reuse env cl key d1 conn k hc hk] at h1
    obtain ⟨r, evs, hw, hdc, hok, _⟩ := WritePacket_total env k d1 cl.trace
    rw [hw] at h1
    cases r with
    | some e => simp at h1
    | none =>
      simp only [Outcome.ok.injEq, Prod.mk.injEq, true_and] at h1
      subst h1
      refine ⟨conn, k, hc, hk, by simp [dialCount_append, hdc], ⟨cl.trace, ?_⟩,
        hsecond conn k hk⟩
      simp [hok rfl]
  · rw [forwardToServer_new env cl key d1 hneed] at h1
    cases hd : env.dialTCP cl.trace with
    | none => rw [hd] at h1; simp at h1
    | some k =>
      rw [hd] at h1
      obtain ⟨r, evs, hw, hdc, hok, _⟩ :=
        WritePacket_total env k d1 (cl.trace ++ [Event.dialTCP (some k), Event.spawnReader k])
      simp only [hw] at h1
      cases r with
      | some e => simp at h1
      | none =>
        simp only [Outcome.ok.injEq, Prod.mk.injEq, true_and] at h1
        subst h1
        refine ⟨⟨some ⟨some k⟩, key, true⟩, k, by simp [mapInsert], rfl,
          by simp [dialCount_append, hdc, dialCount],
          ⟨cl.trace ++ [Event.dialTCP (some k), Event.spawnReader k], ?_⟩,
          hsecond _ k rfl⟩
        simp [hok rfl]

theorem C6_session_reuse_witness :
    forwardToServer envAllOk ⟨fun _ => none, []⟩ "peer" [1] =
        .ok (none, ⟨mapInsert (fun _ => none) "peer" ⟨some ⟨some 0⟩, "peer", true⟩,
          [Event.dialTCP (some 0), Event.spawnReader 0, Event.tcpWrite 0 [0, 1] true,
            Event.tcpWrite 0 [1] true]⟩) ∧
      ∃ conn k,
        mapInsert (fun _ => none) "peer" ⟨some ⟨some 0⟩, "peer", true⟩ "peer" = some conn ∧
        conn.tcpHandler = some ⟨some k⟩ ∧
        ∀ (cl' : TunnelClient) (d2 : List Byte), cl'.connections "peer" = some conn →
          ∃ r cl2, forwardToServer envAllOk cl' "peer" d2 = .ok (r, cl2) ∧
            dialCount cl2.trace = dialCount cl'.trace := by
  refine ⟨rfl, ?_⟩
  obtain ⟨conn, k, hc, hk, _, _, hsecond⟩ :=
    C6_session_reuse envAllOk ⟨fun _ => none, []⟩
      ⟨mapInsert (fun _ => none) "peer" ⟨some ⟨some 0⟩, "peer", true⟩,
        [Event.dialTCP (some 0), Event.spawnReader 0, Event.tcpWrite 0 [0, 1] true,
          Event.tcpWrite 0 [1] true]⟩ "peer" [1] rfl
  refine ⟨conn, k, hc, hk, fun cl' d2 h => ?_⟩
  obtain ⟨r, _, cl2, _, hrun, hdc, _⟩ := hsecond cl' d2 h
  exact ⟨r, cl2, hrun, hdc⟩

/-- Claim C6 (counterexample): the first call for a new peer dials, registers
the session and writes its frame; the second call finds that session, valid, in
the table and its write fails: no dial is made, but on return the table holds
no entry for the peer key. -/
theorem C6_counterexample_second_write_fails :
    ∃ cl1 cl2, forwardToServer envEarlyWrites ⟨fun _ => none, []⟩ "peer" [1] = .ok (none, cl1) ∧
      cl1.connections "peer" = some ⟨some ⟨some 0⟩, "peer", true⟩ ∧
      isConnectionValid ⟨some ⟨some 0⟩, "peer", true⟩ = true ∧
      cl1.trace = [Event.dialTCP (some 0), Event.spawnReader 0, Event.tcpWrite 0 [0, 1] true,
        Event.tcpWrite 0 [1] true] ∧
      forwardToServer envEarlyWrites cl1 "peer" [2] = .ok (some Error.writeLength, cl2) ∧
      cl2.trace = cl1.trace ++ [Event.tcpWrite 0 [0, 1] false, Event.tcpClose 0] ∧
      cl2.connections "peer" = none := by
  refine ⟨_, _, rfl, ?_, by decide, by decide, rfl, by decide, ?_⟩
  · simp [mapInsert, NewTCPPacketHandler]
  · simp [removeConnection, mapInsert, mapDelete]

/-! ### Cleanup of a terminating response reader -/

/-- The deferred cleanup of a reader with a back reference: it closes the
reader's own session, then removes whatever session the table holds under the
reader's peer key and closes that one too; other keys are unchanged. -/
theorem responseCleanup_removes_entry (c s' : ClientConnection) (cl : TunnelClient)
    (hclient : c.client = true) (hentry : cl.connections c.clientAddr = some s') :
    (responseCleanup c cl).connections c.clientAddr = none ∧
      (responseCleanup c cl).trace = s'.Close (c.Close cl.trace) ∧
      ∀ k', k' ≠ c.clientAddr → (responseCleanup c cl).connections k' = cl.connections k' := by
  refine ⟨?_, ?_, fun k' hk' => ?_⟩
  · simp [responseCleanup, hclient, removeConnection, hentry, mapDelete]
  · simp [responseCleanup, hclient, removeConnection, hentry]
  · simp [responseCleanup, hclient, removeConnection, hentry, mapDelete, hk']

/-- Claim C12 (failing input): a peer's session on connection 0 is evicted by a
failed write, the next datagram of the peer registers a new session on
connection 4, and then the reader of the old session terminates.  Its cleanup
closes connection 0, removes the new session from the table and closes
connection 4 as well. -/
theorem C12_stale_reader_evicts_newer_session :
    ∃ cl1 cl2 cl3,
      forwardToServer envLateWrites ⟨fun _ => none, []⟩ "peer" [1] =
        .ok (some Error.writeLength, cl1) ∧
      cl1.trace = [Event.dialTCP (some 0), Event.spawnReader 0, Event.tcpWrite 0 [0, 1] false,
        Event.tcpClose 0] ∧
      cl1.connections "peer" = none ∧
      forwardToServer envLateWrites cl1 "peer" [1] = .ok (none, cl2) ∧
      cl2.trace = cl1.trace ++ [Event.dialTCP (some 4), Event.spawnReader 4,
        Event.tcpWrite 4 [0, 1] true, Event.tcpWrite 4 [1] true] ∧
      cl2.connections "peer" = some ⟨some ⟨some 4⟩, "peer", true⟩ ∧
      ClientConnection.HandleServerResponse envLateWrites ⟨some ⟨some 0⟩, "peer", true⟩ 1 [] cl2 =
        .ok cl3 ∧
      cl3.trace = cl2.trace ++ [Event.tcpClose 0, Event.tcpClose 4] ∧
      cl3.connections "peer" = none := by
  refine ⟨_, _, _, rfl, by decide, ?_, rfl, by decide, ?_, rfl, ?_, ?_⟩
  · simp [removeConnection, mapInsert, mapDelete]
  · rfl
  · rfl
  · simp [responseCleanup, removeConnection, mapInsert, mapDelete]

/-! ### Teardown of a server connection (`ServerConnection.Start`) -/

/-- The loop function `handleClientData` is the iteration `handleClientDataIter`
repeated until it returns. -/
theorem handleClientData_iter (env : Env) (fuel : Nat) (sc : ServerConnection)
    (stream : List Byte) (t : List Event) :
    handleClientData env (fuel + 1) sc stream t =
      match handleClientDataIter env sc stream t with
      | .ok (true, sc1, rest, t1) => handleClientData env fuel sc1 rest t1
      | .ok (false, sc1, _, t1) => .ok (sc1, t1)
      | .crash => .crash
      | .timeout => .timeout := by
  rw [handleClientData]
  unfold handleClientDataIter
  cases hc : carrierOf sc.tcpHandler with
  | none => rfl
  | some k =>
    simp only []
    rcases hr : ReadPacket stream with ⟨r, rest⟩
    cases r with
    | error e => rfl
    | ok data =>
      by_cases h0 : data.length = 0
      · simp [h0]
      · simp only [h0, if_false]
        rcases hf : forwardToUDP env sc data t with ⟨res, sc1, t1⟩ | _ | _
        · cases res <;> rfl
        · rfl
        · rfl

theorem startStep_teardown (env : Env) (s : Relay) :
    startStep env s Action.teardown =
      if s.upstream = Phase.returned ∧ s.closed = false then
        some { s with trace := s.sc.Close s.trace, closed := true }
      else none := rfl

theorem startStep_downstream (env : Env) (s : Relay) (r : UdpRead) :
    startStep env s (Action.downstream r) =
      if s.downstream = Phase.running then
        match handleUDPResponseIter env s.sc r s.trace with
        | .ok (true, t1) => some { s with trace := t1 }
        | .ok (false, t1) => some { s with trace := t1, downstream := Phase.returned }
        | _ => none
      else none := rfl

theorem startStep_upstream (env : Env) (s : Relay) :
    startStep env s Action.upstream =
      if s.upstream = Phase.running ∧ (frameReady s.stream = true ∨ s.streamEnds = true) then
        match handleClientDataIter env s.sc s.stream s.trace with
        | .ok (true, sc1, rest, t1) => some { s with sc := sc1, stream := rest, trace := t1 }
        | .ok (false, sc1, rest, t1) =>
          some { s with sc := sc1, stream := rest, trace := t1, upstream := Phase.returned }
        | _ => none
      else none := rfl

/-- The deferred `Close` can run exactly when `handleClientData` has returned
and `Close` has not run yet, wherever `handleUDPResponse` is. -/
theorem teardown_enabled_iff (env : Env) (s : Relay) :
    (startStep env s Action.teardown).isSome = true ↔
      (s.upstream = Phase.returned ∧ s.closed = false) := by
  rw [startStep_teardown]
  by_cases h : s.upstream = Phase.returned ∧ s.closed = false
  · simp [h]
  · simp only [h, if_false, Option.isSome_none, iff_false]
    exact fun hf => by cases hf

/-- An iteration of `handleUDPResponse`, also the one in which it returns,
leaves the upstream loop and the closed flag as they are. -/
theorem downstream_step_keeps (env : Env) (s s' : Relay) (r : UdpRead)
    (h : startStep env s (Action.downstream r) = some s') :
    s'.upstream = s.upstream ∧ s'.closed = s.closed ∧ s'.stream = s.stream ∧
      s'.streamEnds = s.streamEnds := by
  rw [startStep_downstream] at h
  by_cases hd : s.downstream = Phase.running
  · rw [if_pos hd] at h
    rcases hit : handleUDPResponseIter env s.sc r s.trace with ⟨b, t1⟩ | _ | _
    · rw [hit] at h
      cases b <;> simp only [Option.some.injEq] at h <;> subst h <;> exact ⟨rfl, rfl, rfl, rfl⟩
    · rw [hit] at h; cases h
    · rw [hit] at h; cases h
  · rw [if_neg hd] at h
    cases h

/-- One step keeps: `Close` has run only if `handleClientData` has returned. -/
theorem startStep_closed_after_upstream (env : Env) (s s' : Relay) (a : Action)
    (h : startStep env s a = some s') (hinv : s.closed = true → s.upstream = Phase.returned) :
    s'.closed = true → s'.upstream = Phase.returned := by
  cases a with
  | downstream r =>
    obtain ⟨hu, hc, _⟩ := downstream_step_keeps env s s' r h
    rw [hu, hc]; exact hinv
  | teardown =>
    rw [startStep_teardown] at h
    by_cases hcond : s.upstream = Phase.returned ∧ s.closed = false
    · rw [if_pos hcond] at h
      simp only [Option.some.injEq] at h
      subst h
      exact fun _ => hcond.1
    · rw [if_neg hcond] at h
      cases h
  | upstream =>
    rw [startStep_upstream] at h
    by_cases hcond : s.upstream = Phase.running ∧ (frameReady s.stream = true ∨ s.streamEnds = true)
    · rw [if_pos hcond] at h
      intro hclosed
      rcases hit : handleClientDataIter env s.sc s.stream s.trace with ⟨b, sc1, rest, t1⟩ | _ | _
      · rw [hit] at h
        cases b
        · simp only [Option.some.injEq] at h
          subst h
          rfl
        · simp only [Option.some.injEq] at h
          subst h
          have hret := hinv hclosed
          rw [hcond.1] at hret
          cases hret
      · rw [hit] at h; cases h
      · rw [hit] at h; cases h
    · rw [if_neg hcond] at h
      cases h

/-- In every run of `Start`, `Close` has run only if `handleClientData` has
returned. -/
theorem startRun_closed_after_upstream (env : Env) (acts : List Action) :
    ∀ (s s' : Relay), startRun env acts s = some s' →
      (s.closed = true → s.upstream = Phase.returned) →
      s'.closed = true → s'.upstream = Phase.returned := by
  induction acts with
  | nil =>
    intro s s' h hinv
    simp only [startRun, Option.some.injEq] at h
    subst h
    exact hinv
  | cons a as ih =>
    intro s s' h hinv
    simp only [startRun] at h
    cases hs : startStep env s a with
    | none => rw [hs] at h; cases h
    | some s1 =>
      rw [hs] at h
      exact ih s1 s' h (startStep_closed_after_upstream env s s1 a hs hinv)

/-- Claim C11 (failing inputs): two runs of `Start` on the pair of carrier
connection 0 and destination socket 1.  In the first the carrier stays open and
silent and the read of `handleUDPResponse` fails: the downstream loop has
returned, `Close` has not run, and no further step can happen.  In the second
the carrier ends at once: `handleClientData` returns, `Close` runs on both
sockets, and `handleUDPResponse` is still in its loop. -/
theorem C11_teardown_follows_upstream_only :
    (startRun envAllOk [Action.downstream UdpRead.failed]
        (startInit ⟨some ⟨some 0⟩, some 1, "client", "target"⟩ [] false []) =
      some { sc := ⟨some ⟨some 0⟩, some 1, "client", "target"⟩, stream := [],
             streamEnds := false, upstream := Phase.running, downstream := Phase.returned,
             closed := false, trace := [] } ∧
      ∀ a, startStep envAllOk
        { sc := ⟨some ⟨some 0⟩, some 1, "client", "target"⟩, stream := [],
          streamEnds := false, upstream := Phase.running, downstream := Phase.returned,
          closed := false, trace := [] } a = none) ∧
    startRun envAllOk [Action.upstream, Action.teardown]
        (startInit ⟨some ⟨some 0⟩, some 1, "client", "target"⟩ [] true []) =
      some { sc := ⟨some ⟨some 0⟩, some 1, "client", "target"⟩, stream := [],
             streamEnds := true, upstream := Phase.returned, downstream := Phase.running,
             closed := true, trace := [Event.tcpClose 0, Event.udpClose 1] } := by
  refine ⟨⟨by decide, fun a => ?_⟩, by decide⟩
  cases a with
  | upstream => decide
  | downstream r => simp [startStep_downstream]
  | teardown => decide

end UdpTunnel
